import Mathlib

/-!
Verification of the excel-handler repository against its specification.

The Python modules are shallowly embedded: Python floats are modelled by
`PyFloat` (an exact rational together with the three non-finite values),
spreadsheet cells by `Cell`, pandas data frames by lists of cell rows, and
dictionaries by association lists.  Fallible code returns `Option` or
`Except`.  Numeric cell payloads are exact rationals: the claims under
study never depend on binary floating-point rounding, and every concrete
value appearing in them is exactly representable.
-/

/-! ## Basic string model

Lean's built-in `String.toLower`, `String.trim`, … do not reduce inside the
kernel, so the Python string operations used by the repository are
re-implemented on the underlying character lists. -/

/-- Python `str.lower()` (character-wise; the repository only lowercases
ASCII and CJK text, where this matches CPython). -/
def lowerStr (s : String) : String := ⟨s.data.map Char.toLower⟩

/-- Python `str.upper()` (character-wise). -/
def upperStr (s : String) : String := ⟨s.data.map Char.toUpper⟩

/-- Drop leading whitespace from a character list. -/
def dropLeadWs (l : List Char) : List Char := l.dropWhile Char.isWhitespace

/-- Python `str.strip()`. -/
def trimStr (s : String) : String :=
  ⟨(dropLeadWs (dropLeadWs s.data).reverse).reverse⟩

/-- `l₁` occurs as a contiguous sublist of `l₂`. -/
def isSubChars : List Char → List Char → Bool
  | _, [] => false
  | needle, hay@(_ :: t) =>
    if needle.isPrefixOf hay then true else isSubChars needle t

/-- Python `needle in hay` on strings (substring containment).
The empty needle is contained in every string. -/
def strContains (hay needle : String) : Bool :=
  if needle.data.isEmpty then true else isSubChars needle.data hay.data

/-- Python `str.replace(old, new)` restricted to the single-character
deletions used by the repository (`replace('.', '')`, `replace(',', '')`,
`replace('月', '')`, currency-symbol removal). -/
def removeChar (s : String) (c : Char) : String :=
  ⟨s.data.filter (fun d => d ≠ c)⟩

/-- Python `str.isdigit()` for the ASCII digits that matter here. -/
def strIsDigit (s : String) : Bool :=
  ¬ s.data.isEmpty && s.data.all Char.isDigit

/-- Numeric value of a list of ASCII digits. -/
def digitsToNat (l : List Char) : ℕ :=
  l.foldl (fun a c => 10 * a + (c.toNat - 48)) 0

/-! ## Python floats

`PyFloat` models an IEEE double as an exact rational plus the three
non-finite values; the programs under study only ever combine values that
are exactly representable, so no rounding is modelled. -/

inductive PyFloat where
  | fin (q : ℚ)
  | nan
  | inf
  | neginf
deriving DecidableEq

/-- `math.isnan` / `np.isnan`. -/
def pyIsNan : PyFloat → Bool
  | .nan => true
  | _ => false

/-- `np.isinf`. -/
def pyIsInf : PyFloat → Bool
  | .inf => true
  | .neginf => true
  | _ => false

/-- A genuinely finite float. -/
def pyFinite : PyFloat → Bool
  | .fin _ => true
  | _ => false

/-- Python float addition (signature restricted to the cases the
repository exercises; `inf + (-inf)` is `nan`). -/
def pyAdd : PyFloat → PyFloat → PyFloat
  | .nan, _ => .nan
  | _, .nan => .nan
  | .inf, .neginf => .nan
  | .neginf, .inf => .nan
  | .inf, _ => .inf
  | _, .inf => .inf
  | .neginf, _ => .neginf
  | _, .neginf => .neginf
  | .fin a, .fin b => .fin (a + b)

/-- Python `sum(...)` over floats (initial value `0`). -/
def pySum (l : List PyFloat) : PyFloat := l.foldl pyAdd (.fin 0)

/-- Python negation. -/
def pyNeg : PyFloat → PyFloat
  | .fin q => .fin (-q)
  | .nan => .nan
  | .inf => .neginf
  | .neginf => .inf

/-- Python `x > 0` (false for `nan`). -/
def pyGtZero : PyFloat → Bool
  | .fin q => 0 < q
  | .inf => true
  | _ => false

/-- Python `x != 0` (true for `nan` and the infinities). -/
def pyNeZero : PyFloat → Bool
  | .fin q => q ≠ 0
  | _ => true

/-- `str()` of a float as pandas produces it for the values the claims
touch: integral rationals print like CPython floats (`2.0`), and the
non-finite values print as `nan` / `inf`.  Non-integral rationals are
given a printed form that is never a month label or a product code, which
is all downstream code inspects. -/
def pyToStr : PyFloat → String
  | .fin q => if q.den = 1 then toString q.num ++ ".0" else toString q.num ++ "/" ++ toString q.den
  | .nan => "nan"
  | .inf => "inf"
  | .neginf => "-inf"

/-- CPython `float(text)` on an already-stripped string: optional sign,
then either a decimal literal (`720`, `720.5`, `.5`, `720.`) or the
special words `inf` / `infinity` / `nan` (case-insensitive).  Exponent
forms and underscore separators never occur in the workbooks modelled
here and are not accepted; every other string raises `ValueError`,
modelled as `none`. -/
def pyFloatOfString (s : String) : Option PyFloat :=
  let t := (lowerStr s).data
  let (negSign, body) :=
    match t with
    | '-' :: rest => (true, rest)
    | '+' :: rest => (false, rest)
    | _ => (false, t)
  if body = "inf".data ∨ body = "infinity".data then
    some (if negSign then .neginf else .inf)
  else if body = "nan".data then some .nan
  else
    let intPart := body.takeWhile (fun c => c ≠ '.')
    let rest := body.dropWhile (fun c => c ≠ '.')
    let fracPart := match rest with
      | '.' :: f => some f
      | [] => some []
      | _ => none
    match fracPart with
    | none => none
    | some f =>
      if rest.isEmpty ∧ intPart.all Char.isDigit ∧ ¬ intPart.isEmpty then
        some (.fin (Rat.divInt (if negSign then -(digitsToNat intPart : ℤ) else (digitsToNat intPart : ℤ)) 1))
      else if ¬ rest.isEmpty ∧ intPart.all Char.isDigit ∧ f.all Char.isDigit ∧
          ¬ (intPart.isEmpty ∧ f.isEmpty) ∧ rest.length = f.length + 1 then
        let mant : ℤ := digitsToNat intPart * 10 ^ f.length + digitsToNat f
        some (.fin (Rat.divInt (if negSign then -mant else mant) (10 ^ f.length)))
      else none

/-! ## Spreadsheet cells

A cell as pandas hands it to the repository: missing (`NaN`), a float, an
integer, or a string.  pandas pads ragged sheets with `NaN`, which is also
how out-of-range reads are modelled. -/

inductive Cell where
  | empty
  | num (x : PyFloat)
  | int (n : ℤ)
  | str (s : String)
deriving DecidableEq

/-- pandas `pd.isna` on a cell. -/
def cellIsNA : Cell → Bool
  | .empty => true
  | .num .nan => true
  | _ => false

/-- Python `str(cell)`. -/
def cellStr : Cell → String
  | .empty => "nan"
  | .num x => pyToStr x
  | .int n => toString n
  | .str s => s

/-- Python `s.startswith(c)` for a single character. -/
def strStartsWithChar (s : String) (c : Char) : Bool :=
  match s.data with
  | d :: _ => d = c
  | [] => false

/-- Python `s.endswith(c)` for a single character. -/
def strEndsWithChar (s : String) (c : Char) : Bool :=
  match s.data.getLast? with
  | some d => d = c
  | none => false

/-- Python `s[1:-1]`. -/
def stripFirstLast (s : String) : String := ⟨(s.data.drop 1).dropLast⟩

/-- Strip the currency symbols and thousands separators the extractors
remove (`$ € £ ¥ ,`). -/
def stripCurrency (s : String) : String :=
  ⟨s.data.filter (fun c => c ≠ '$' ∧ c ≠ '€' ∧ c ≠ '£' ∧ c ≠ '¥' ∧ c ≠ ',')⟩

/-- The last `n` elements of a list (Python `l[-n:]`). -/
def lastN {α : Type} (n : ℕ) (l : List α) : List α := l.drop (l.length - n)

/-- Float division by a positive count (`np.mean` internals); the
non-finite values absorb. -/
def pyDivNat : PyFloat → ℕ → PyFloat
  | .fin q, n => .fin (q / n)
  | x, _ => x

/-- `np.mean` over floats. -/
def pyMean (l : List PyFloat) : PyFloat := pyDivNat (pySum l) l.length

/-- A pandas single-sheet data frame read with `header=None`: a row-major
grid of cells together with its column count (ragged rows are padded with
`NaN` by pandas; out-of-range reads model that padding). -/
structure Grid where
  ncols : ℕ
  rows : List (List Cell)

/-- `df.iloc[r, c]`. -/
def cellAt (g : Grid) (r c : ℕ) : Cell := ((g.rows.get? r).getD []).getD c Cell.empty

/-! ## §prediction_utils — monthly forecast utilities -/

namespace PredU

/-- Mean of a list of rationals (`np.mean`). -/
def qMean (l : List ℚ) : ℚ := l.sum / l.length

/-- Degree-1 least-squares fit of `ys` against x-positions `0..n-1`
(`np.polyfit(x, y, 1)`), returned as `(slope, intercept)`.  For the
guarded call sites (`n ≥ 2`, distinct x) the normal-equation denominator
is nonzero; the degenerate branch is never reached. -/
def polyfitDeg1 (ys : List ℚ) : ℚ × ℚ :=
  let n : ℚ := ys.length
  let xs : List ℚ := (List.range ys.length).map (fun i => (i : ℚ))
  let sx := xs.sum
  let sy := ys.sum
  let sxx := (xs.map (fun x => x * x)).sum
  let sxy := ((xs.zip ys).map (fun p => p.1 * p.2)).sum
  let denom := n * sxx - sx * sx
  if denom = 0 then (0, 0)
  else
    let slope := (n * sxy - sx * sy) / denom
    (slope, (sy - slope * sx) / n)

/-- `prediction_utils.predict_next_months(values, num_months, method)`. -/
def predict_next_months (values : List ℚ) (num_months : ℕ) (method : String) : List ℚ :=
  if values.isEmpty then List.replicate num_months 0
  else
    let clean_values := values.filter (fun v => 0 < v)
    if clean_values.isEmpty then List.replicate num_months 0
    else if method = "moving_average" then
      let window := min 3 clean_values.length
      if 0 < window then
        let avg := qMean (lastN window clean_values)
        List.replicate num_months (max 0 avg)
      else List.replicate num_months 0
    else if method = "linear_trend" then
      if 2 ≤ clean_values.length then
        let c := polyfitDeg1 clean_values
        (List.range num_months).map
          (fun i : ℕ => max 0 (c.1 * ((clean_values.length : ℚ) + ((i : ℚ) + 1) - 1) + c.2))
      else List.replicate num_months (clean_values.getLastD 0)
    else []

end PredU

/-- A default-valued last element of a nonempty list is a member. -/
theorem getLastD_mem {α : Type} (l : List α) (d : α) (h : l ≠ []) : l.getLastD d ∈ l := by
  induction l with
  | nil => exact absurd rfl h
  | cons a t ih =>
    cases t with
    | nil => simp
    | cons b u =>
      have : (b :: u).getLastD d ∈ b :: u := ih (by simp)
      simpa using Or.inr this

/-- **C2.** For every list of historical values and every horizon,
`predict_next_months` (with either of its two supported methods) returns
exactly `num_months` entries, each `≥ 0`; when the input is empty or
contains no positive value it returns `num_months` zeros. -/
theorem claim_C2_predict_next_months (values : List ℚ) (num_months : ℕ) (method : String)
    (hm : method = "moving_average" ∨ method = "linear_trend") :
    (PredU.predict_next_months values num_months method).length = num_months ∧
    (∀ x ∈ PredU.predict_next_months values num_months method, 0 ≤ x) ∧
    (values.filter (fun v => 0 < v) = [] →
      PredU.predict_next_months values num_months method = List.replicate num_months 0) := by
  unfold PredU.predict_next_months
  by_cases hv : values.isEmpty
  · simp [hv]
  · simp only [hv, if_false]
    by_cases hc : (values.filter (fun v => 0 < v)).isEmpty
    · simp [hc, List.isEmpty_iff.mp hc]
    · have hcne : values.filter (fun v => 0 < v) ≠ [] := by
        intro h
        rw [h] at hc
        exact hc (by simp)
      have hlenpos : 0 < (values.filter (fun v => 0 < v)).length :=
        List.length_pos_of_ne_nil hcne
      have hwin : 0 < min 3 (values.filter (fun v => 0 < v)).length := by omega
      have hne : ("linear_trend" : String) ≠ "moving_average" := by decide
      refine ⟨?_, ?_, fun hfilter => absurd hfilter hcne⟩
      · rcases hm with hm | hm <;> subst hm
        · simp [hc, hwin]
        · by_cases h2 : 2 ≤ (values.filter (fun v => 0 < v)).length <;>
            simp [hc, hne, h2]
      · intro x hx
        rcases hm with hm | hm <;> subst hm
        · simp only [hc, if_false, if_pos hwin, if_pos rfl] at hx
          rcases List.eq_of_mem_replicate hx with rfl
          exact le_max_left _ _
        · by_cases h2 : 2 ≤ (values.filter (fun v => 0 < v)).length
          · simp only [hc, hne, h2, if_false, if_true, ite_true, ite_false] at hx
            rcases List.mem_map.mp hx with ⟨i, hi, rfl⟩
            exact le_max_left _ _
          · simp only [hc, hne, h2, if_false, if_true, ite_true, ite_false] at hx
            rcases List.eq_of_mem_replicate hx with rfl
            have hmem : (values.filter (fun v => 0 < v)).getLastD 0 ∈
                values.filter (fun v => 0 < v) := getLastD_mem _ _ hcne
            have := List.of_mem_filter hmem
            exact le_of_lt (by simpa using this)

/-- Witness for C2 at a concrete input: the empty history with a 4-month
horizon and the moving-average method yields four zeros, all `≥ 0`. -/
theorem claim_C2_witness :
    (PredU.predict_next_months [] 4 "moving_average").length = 4 ∧
    PredU.predict_next_months [] 4 "moving_average" = List.replicate 4 0 := by
  have h := claim_C2_predict_next_months [] 4 "moving_average" (Or.inl rfl)
  exact ⟨h.1, h.2.2 (by rfl)⟩

/-! ## Shared numeric-text parsing

Every extractor copy of `normalize_numeric_value` (and the universal
extractor's `to_float`) treats string input identically: strip currency
symbols and commas, trim, honour a parenthesised negative, treat the
empty string and a lone `-` as absent, then attempt a float parse. -/

/-- The common string branch of the numeric normalizers. -/
def numericTextValue (s : String) : Option PyFloat :=
  let text := trimStr (stripCurrency s)
  let isNeg := strStartsWithChar text '(' && strEndsWithChar text ')'
  let text2 := if isNeg then trimStr (stripFirstLast text) else text
  if text2 = "" ∨ text2 = "-" then none
  else
    match pyFloatOfString text2 with
    | some x => some (if isNeg then pyNeg x else x)
    | none => none

/-! ## §excel_extractor — row-oriented monthly extractor -/

namespace ExcelX

/-- `excel_extractor.MONTH_VARIANTS` (insertion order preserved). -/
def MONTH_VARIANTS : List (String × String) :=
  [("jan", "January"), ("january", "January"), ("01", "January"), ("1", "January"),
   ("feb", "February"), ("february", "February"), ("02", "February"), ("2", "February"),
   ("mar", "March"), ("march", "March"), ("03", "March"), ("3", "March"),
   ("apr", "April"), ("april", "April"), ("04", "April"), ("4", "April"),
   ("may", "May"), ("05", "May"), ("5", "May"),
   ("jun", "June"), ("june", "June"), ("06", "June"), ("6", "June"),
   ("jul", "July"), ("july", "July"), ("07", "July"), ("7", "July"),
   ("aug", "August"), ("august", "August"), ("08", "August"), ("8", "August"),
   ("sep", "September"), ("sept", "September"), ("september", "September"),
   ("09", "September"), ("9", "September"),
   ("oct", "October"), ("october", "October"), ("10", "October"),
   ("nov", "November"), ("november", "November"), ("11", "November"),
   ("dec", "December"), ("december", "December"), ("12", "December")]

/-- Fiscal month order, April through March. -/
def FISCAL_MONTHS : List String :=
  ["April", "May", "June", "July", "August", "September",
   "October", "November", "December", "January", "February", "March"]

/-- Column letters for the fiscal months (D through O). -/
def MONTH_COLUMNS : List String :=
  ["D", "E", "F", "G", "H", "I", "J", "K", "L", "M", "N", "O"]

/-- `excel_extractor.normalize_month_name`. -/
def normalize_month_name (v : Cell) : Option String :=
  if cellIsNA v then none
  else
    let text := lowerStr (trimStr (cellStr v))
    let text := if strEndsWithChar text '月' then removeChar text '月' else text
    let text := removeChar text '.'
    match MONTH_VARIANTS.find? (fun p => p.1 = text) with
    | some p => some p.2
    | none =>
      if strIsDigit text then
        let num := digitsToNat text.data
        if 1 ≤ num ∧ num ≤ 12 then
          some (if 4 ≤ num then FISCAL_MONTHS.getD ((num - 4) % 12) ""
                else FISCAL_MONTHS.getD (num + 8) "")
        else none
      else none

/-- `excel_extractor.normalize_numeric_value`.  Note: the numeric branch
casts any non-NA number straight to float, so an infinite input is
returned unchanged (only `NaN` is caught, by the `pd.isna` guard). -/
def normalize_numeric_value (v : Cell) : Option PyFloat :=
  if cellIsNA v then none
  else
    match v with
    | .num x => some x
    | .int n => some (.fin n)
    | .str s => numericTextValue s
    | .empty => none

end ExcelX

/-! ## §comprehensive_extractor — comprehensive multi-sheet extractor -/

namespace ComprehensiveX

/-- `comprehensive_extractor.MONTH_VARIANTS`: the shared table plus the
twelve Japanese `<n>月` keys, appended in source order. -/
def MONTH_VARIANTS : List (String × String) :=
  ExcelX.MONTH_VARIANTS ++
  [("1月", "January"), ("2月", "February"), ("3月", "March"), ("4月", "April"),
   ("5月", "May"), ("6月", "June"), ("7月", "July"), ("8月", "August"),
   ("9月", "September"), ("10月", "October"), ("11月", "November"), ("12月", "December")]

/-- Fiscal month order, April through March. -/
def FISCAL_MONTHS : List String := ExcelX.FISCAL_MONTHS

/-- `comprehensive_extractor.normalize_month_name`.  When the text
contains `月` the variant table is scanned in order and the first key
occurring as a substring wins. -/
def normalize_month_name (v : Cell) : Option String :=
  if cellIsNA v then none
  else
    let text := trimStr (cellStr v)
    let viaJp :=
      if strContains text "月" then MONTH_VARIANTS.find? (fun p => strContains text p.1)
      else none
    match viaJp with
    | some p => some p.2
    | none =>
      let tl := trimStr (removeChar (lowerStr text) '.')
      match MONTH_VARIANTS.find? (fun p => p.1 = tl) with
      | some p => some p.2
      | none =>
        if strIsDigit tl then
          let num := digitsToNat tl.data
          if 1 ≤ num ∧ num ≤ 12 then
            some (if 4 ≤ num then FISCAL_MONTHS.getD ((num - 4) % 12) ""
                  else FISCAL_MONTHS.getD (num + 8) "")
          else none
        else none

/-- `comprehensive_extractor.normalize_numeric_value`: like the
row-oriented extractor's copy but explicitly rejecting `NaN` and the
infinities on numeric input. -/
def normalize_numeric_value (v : Cell) : Option PyFloat :=
  if cellIsNA v then none
  else
    match v with
    | .num x => if pyIsNan x || pyIsInf x then none else some x
    | .int n => some (.fin n)
    | .str s => numericTextValue s
    | .empty => none

end ComprehensiveX

/-! ## §universal_extractor — month name and float normalization -/

namespace UniversalX

/-- `universal_extractor.MONTH_VARIANTS` (same table as the
comprehensive extractor, Japanese keys included). -/
def MONTH_VARIANTS : List (String × String) := ComprehensiveX.MONTH_VARIANTS

/-- Fiscal month order, April through March. -/
def FISCAL_MONTHS : List String := ExcelX.FISCAL_MONTHS

/-- The six known product codes. -/
def KNOWN_PRODUCTS : List String :=
  ["MCT360", "MCT165", "MCTSTICK10", "MCTSTICK30", "MCTSTICK16", "MCTITTO_C"]

/-- `universal_extractor.to_float`: rejects non-finite *numeric* input,
but a string is handed to `float(...)` unchecked, so text such as
`"inf"` parses to an infinite value. -/
def to_float (v : Cell) : Option PyFloat :=
  if cellIsNA v then none
  else
    match v with
    | .num x => if pyIsNan x || pyIsInf x then none else some x
    | .int n => some (.fin n)
    | .str s => numericTextValue s
    | .empty => none

/-- `universal_extractor.normalize_month_name` (identical to the
comprehensive extractor's copy). -/
def normalize_month_name (v : Cell) : Option String :=
  if cellIsNA v then none
  else
    let text := trimStr (cellStr v)
    let viaJp :=
      if strContains text "月" then MONTH_VARIANTS.find? (fun p => strContains text p.1)
      else none
    match viaJp with
    | some p => some p.2
    | none =>
      let tl := trimStr (removeChar (lowerStr text) '.')
      match MONTH_VARIANTS.find? (fun p => p.1 = tl) with
      | some p => some p.2
      | none =>
        if strIsDigit tl then
          let num := digitsToNat tl.data
          if 1 ≤ num ∧ num ≤ 12 then
            some (if 4 ≤ num then FISCAL_MONTHS.getD ((num - 4) % 12) ""
                  else FISCAL_MONTHS.getD (num + 8) "")
          else none
        else none

end UniversalX

/-- **C4 counterexample.** The row-oriented extractor's copy of
`normalize_numeric_value` does *not* reject an infinite numeric input:
`float('inf')` is returned unchanged, not the absent sentinel, so the
claim's "holds for every extractor variant's copy" fails. -/
theorem claim_C4_counterexample :
    ExcelX.normalize_numeric_value (Cell.num PyFloat.inf) = some PyFloat.inf ∧
    ExcelX.normalize_numeric_value (Cell.num PyFloat.inf) ≠ none := by
  exact ⟨rfl, by decide⟩

/-- **C4 (amended).** `normalize_numeric_value` returns `720.5` for
`"720.5"` and `"$720.50"`, `1234.56` for `"1,234.56"`, `-500.0` for
`"(500)"`, and absent for `""`, `"-"` and absent input, in both the
row-oriented and the comprehensive extractor's copies; both copies
reject numeric `NaN` and cast other numeric input to float, but only the
comprehensive copy rejects infinite numeric input — the row-oriented
copy returns it unchanged. -/
theorem claim_C4_normalize_numeric_value :
    (ExcelX.normalize_numeric_value (Cell.str "720.5") = some (.fin (Rat.divInt 7205 10)) ∧
      ComprehensiveX.normalize_numeric_value (Cell.str "720.5") = some (.fin (Rat.divInt 7205 10))) ∧
    (ExcelX.normalize_numeric_value (Cell.str "$720.50") = some (.fin (Rat.divInt 7205 10)) ∧
      ComprehensiveX.normalize_numeric_value (Cell.str "$720.50") = some (.fin (Rat.divInt 7205 10))) ∧
    (ExcelX.normalize_numeric_value (Cell.str "1,234.56") = some (.fin (Rat.divInt 123456 100)) ∧
      ComprehensiveX.normalize_numeric_value (Cell.str "1,234.56") = some (.fin (Rat.divInt 123456 100))) ∧
    (ExcelX.normalize_numeric_value (Cell.str "(500)") = some (.fin (Rat.divInt (-500) 1)) ∧
      ComprehensiveX.normalize_numeric_value (Cell.str "(500)") = some (.fin (Rat.divInt (-500) 1))) ∧
    (ExcelX.normalize_numeric_value (Cell.str "") = none ∧
      ComprehensiveX.normalize_numeric_value (Cell.str "") = none) ∧
    (ExcelX.normalize_numeric_value (Cell.str "-") = none ∧
      ComprehensiveX.normalize_numeric_value (Cell.str "-") = none) ∧
    (ExcelX.normalize_numeric_value Cell.empty = none ∧
      ComprehensiveX.normalize_numeric_value Cell.empty = none) ∧
    (ExcelX.normalize_numeric_value (Cell.num PyFloat.nan) = none ∧
      ComprehensiveX.normalize_numeric_value (Cell.num PyFloat.nan) = none) ∧
    (ComprehensiveX.normalize_numeric_value (Cell.num PyFloat.inf) = none ∧
      ComprehensiveX.normalize_numeric_value (Cell.num PyFloat.neginf) = none) ∧
    (ExcelX.normalize_numeric_value (Cell.num PyFloat.inf) = some PyFloat.inf) ∧
    (∀ q : ℚ, ExcelX.normalize_numeric_value (Cell.num (.fin q)) = some (.fin q) ∧
      ComprehensiveX.normalize_numeric_value (Cell.num (.fin q)) = some (.fin q)) := by
  refine ⟨by decide, by decide, by decide, by decide, by decide, by decide,
    by decide, by decide, by decide, by decide, fun q => ⟨rfl, rfl⟩⟩

/-- **C10.** In the comprehensive and universal extractors'
`normalize_month_name`, any non-absent input whose (trimmed) text
contains `月` and matches some variant-table key as a substring resolves
to the month of the *first* matching key in table order; consequently
`10月`, `11月` and `12月` all normalize to January (matched via the key
`"1"`), not October/November/December. -/
theorem claim_C10_japanese_months_resolve_to_first_key :
    (∀ v : Cell, cellIsNA v = false →
      strContains (trimStr (cellStr v)) "月" = true →
      ∀ p : String × String,
        ComprehensiveX.MONTH_VARIANTS.find?
          (fun q => strContains (trimStr (cellStr v)) q.1) = some p →
        ComprehensiveX.normalize_month_name v = some p.2 ∧
        UniversalX.normalize_month_name v = some p.2) ∧
    ComprehensiveX.normalize_month_name (Cell.str "10月") = some "January" ∧
    ComprehensiveX.normalize_month_name (Cell.str "11月") = some "January" ∧
    ComprehensiveX.normalize_month_name (Cell.str "12月") = some "January" ∧
    UniversalX.normalize_month_name (Cell.str "10月") = some "January" ∧
    UniversalX.normalize_month_name (Cell.str "11月") = some "January" ∧
    UniversalX.normalize_month_name (Cell.str "12月") = some "January" := by
  refine ⟨?_, by decide, by decide, by decide, by decide, by decide, by decide⟩
  intro v hna hjp p hfind
  constructor
  · unfold ComprehensiveX.normalize_month_name
    simp only [hna, Bool.false_eq_true, if_false, hjp, if_true, hfind]
  · unfold UniversalX.normalize_month_name
    have : UniversalX.MONTH_VARIANTS = ComprehensiveX.MONTH_VARIANTS := rfl
    simp only [hna, Bool.false_eq_true, if_false, hjp, if_true, this, hfind]

/-- Witness for C10: the general first-matching-key rule applied at the
concrete input `"10月"`, whose first matching table key is `"1"`. -/
theorem claim_C10_witness :
    ComprehensiveX.normalize_month_name (Cell.str "10月") = some "January" ∧
    UniversalX.normalize_month_name (Cell.str "10月") = some "January" := by
  exact claim_C10_japanese_months_resolve_to_first_key.1 (Cell.str "10月")
    (by decide) (by decide) ("1", "January") (by decide)

/-! ## §strict_excel_extractor — strict multi-sheet extractor -/

namespace StrictX

/-- `strict_excel_extractor.MONTH_VARIANTS` (no Japanese keys). -/
def MONTH_VARIANTS : List (String × String) := ExcelX.MONTH_VARIANTS

/-- Fiscal month order, April through March. -/
def FISCAL_MONTHS : List String := ExcelX.FISCAL_MONTHS

/-- `strict_excel_extractor.normalize_month_name`. -/
def normalize_month_name (v : Cell) : Option String :=
  if cellIsNA v then none
  else
    let text := lowerStr (trimStr (cellStr v))
    let text := if strEndsWithChar text '月' then removeChar text '月' else text
    let text := trimStr (removeChar text '.')
    match MONTH_VARIANTS.find? (fun p => p.1 = text) with
    | some p => some p.2
    | none =>
      if strIsDigit text then
        let num := digitsToNat text.data
        if 1 ≤ num ∧ num ≤ 12 then
          some (if 4 ≤ num then FISCAL_MONTHS.getD ((num - 4) % 12) ""
                else FISCAL_MONTHS.getD (num + 8) "")
        else none
      else none

/-- `strict_excel_extractor.normalize_numeric_value`: rejects `NaN` and
infinite numeric input, absent on any parse failure — never a default. -/
def normalize_numeric_value (v : Cell) : Option PyFloat :=
  if cellIsNA v then none
  else
    match v with
    | .num x => if pyIsNan x || pyIsInf x then none else some x
    | .int n => some (.fin n)
    | .str s => numericTextValue s
    | .empty => none

/-- `strict_excel_extractor.extract_exact_monthly_values`: for each
detected month column, sum the genuinely numeric cells across the given
rows; a month with zero qualifying cells is recorded as `None` (absent),
never zero.  Out-of-range row/column indices are skipped. -/
def extract_exact_monthly_values (g : Grid) (row_indices : List ℕ)
    (month_columns : List (String × ℕ)) : List (String × Option PyFloat) :=
  month_columns.map (fun mc =>
    let month_values := row_indices.filterMap (fun r =>
      if r < g.rows.length ∧ mc.2 < g.ncols then normalize_numeric_value (cellAt g r mc.2)
      else none)
    (mc.1, if month_values.isEmpty then none else some (pySum month_values)))

/-- `strict_excel_extractor.calculate_forecast`: 3-month moving average
with the usual degradation, but an explicitly absent-filled list (never
zeros) when there is no historical data at all. -/
def calculate_forecast (historical_values : List (Option PyFloat)) (num_months : ℕ) :
    List (Option PyFloat) :=
  if historical_values.isEmpty then List.replicate num_months none
  else
    let valid_values := historical_values.filterMap (fun v =>
      match v with
      | none => none
      | some x => if pyIsNan x then none else some x)
    if valid_values.isEmpty then List.replicate num_months none
    else
      let forecast_value :=
        if 3 ≤ valid_values.length then pyMean (lastN 3 valid_values)
        else if 2 ≤ valid_values.length then pyMean valid_values
        else valid_values.getLastD (.fin 0)
      List.replicate num_months (some forecast_value)

end StrictX

/-- **C8.** In the strict extractor, `extract_exact_monthly_values`
records a month as absent (not zero) whenever none of the examined
in-range rows holds a parseable numeric cell in that month's column, and
`calculate_forecast` returns `num_months` absent entries (never zeros)
whenever the historical list is empty or holds no valid value. -/
theorem claim_C8_strict_absent_never_zero :
    (∀ (g : Grid) (row_indices : List ℕ) (month_columns : List (String × ℕ))
        (m : String) (c : ℕ),
      (m, c) ∈ month_columns →
      (∀ r ∈ row_indices, r < g.rows.length → c < g.ncols →
        StrictX.normalize_numeric_value (cellAt g r c) = none) →
      (m, (none : Option PyFloat)) ∈
        StrictX.extract_exact_monthly_values g row_indices month_columns) ∧
    (∀ (hist : List (Option PyFloat)) (n : ℕ),
      (∀ x : PyFloat, some x ∈ hist → pyIsNan x = true) →
      StrictX.calculate_forecast hist n = List.replicate n none) := by
  constructor
  · intro g row_indices month_columns m c hmem hnone
    have hnil : row_indices.filterMap (fun r =>
        if r < g.rows.length ∧ c < g.ncols then StrictX.normalize_numeric_value (cellAt g r c)
        else none) = [] := by
      rw [List.filterMap_eq_nil_iff]
      intro r hr
      by_cases hin : r < g.rows.length ∧ c < g.ncols
      · rw [if_pos hin]
        exact hnone r hr hin.1 hin.2
      · rw [if_neg hin]
    unfold StrictX.extract_exact_monthly_values
    refine List.mem_map.mpr ⟨(m, c), hmem, ?_⟩
    simp [hnil]
  · intro hist n hvalid
    unfold StrictX.calculate_forecast
    by_cases hh : hist.isEmpty
    · rw [if_pos hh]
    · rw [if_neg hh]
      have hnil : hist.filterMap (fun v =>
          match v with
          | none => none
          | some x => if pyIsNan x then none else some x) = [] := by
        rw [List.filterMap_eq_nil_iff]
        intro v hv
        cases v with
        | none => rfl
        | some x => simp [hvalid x hv]
      rw [hnil]
      simp

/-- Witness for C8: a one-cell sheet whose only cell is the text `"x"`
(unparseable) yields `April ↦ absent`, and a history of `[None, nan]`
forecasts twelve absent entries. -/
theorem claim_C8_witness :
    ("April", (none : Option PyFloat)) ∈
      StrictX.extract_exact_monthly_values ⟨1, [[Cell.str "x"]]⟩ [0] [("April", 0)] ∧
    StrictX.calculate_forecast [none, some PyFloat.nan] 12 = List.replicate 12 none := by
  constructor
  · exact claim_C8_strict_absent_never_zero.1 ⟨1, [[Cell.str "x"]]⟩ [0] [("April", 0)]
      "April" 0 (by decide) (by decide)
  · refine claim_C8_strict_absent_never_zero.2 [none, some PyFloat.nan] 12 ?_
    intro x hx
    simp only [List.mem_cons, List.not_mem_nil, or_false, reduceCtorEq, false_or,
      Option.some.injEq] at hx
    subst hx
    rfl

/-! ## Classified rows

The controller hands the extraction helpers lists of row dictionaries:
column-letter-keyed cell values plus a `set_type` tag. -/

/-- One classified spreadsheet row. -/
structure IngRow where
  set_type : String
  cells : List (String × Cell)
deriving DecidableEq

/-- Python `row.get(col, "")`: missing keys default to the empty string. -/
def rowGet (row : IngRow) (col : String) : Cell :=
  match row.cells.find? (fun p => p.1 = col) with
  | some p => p.2
  | none => Cell.str ""

namespace ExcelX

/-- `excel_extractor.extract_from_ingredient_section`: restricted to rows
tagged `current`; per fiscal month, sums the nonzero numeric values across
those rows, keeping only months whose sum is a valid (non-NaN) number. -/
def extract_from_ingredient_section (ingredient_data : List IngRow) (_product_code : String) :
    List (String × PyFloat) :=
  let current_rows := ingredient_data.filter (fun r => r.set_type = "current")
  if current_rows.isEmpty then []
  else
    (FISCAL_MONTHS.zip MONTH_COLUMNS).foldl (fun series mc =>
      let month_values := current_rows.filterMap (fun row =>
        match normalize_numeric_value (rowGet row mc.2) with
        | some v => if pyNeZero v then some v else none
        | none => none)
      if month_values.isEmpty then series
      else
        let total := pySum month_values
        if pyIsNan total then series else series ++ [(mc.1, total)]) []

end ExcelX

/-! ## §chart_data_builder — legacy chart-data functions -/

namespace ChartB

/-- Fiscal month order, April through March. -/
def FISCAL_MONTHS : List String := ExcelX.FISCAL_MONTHS

/-- One chart series: parallel month/value arrays. -/
structure SeriesOut where
  months : List String
  historical : List PyFloat
  predicted : List PyFloat
deriving DecidableEq

/-- The structure `extract_real_data_from_excel` and
`build_chart_data_from_workflow4` return. -/
structure ChartOut where
  overall : SeriesOut
  ingredients : List (String × SeriesOut)
deriving DecidableEq

/-- The Workflow-4 pipeline result as far as the legacy chart builder
could observe it: the per-product forecast table and the long-format
monthly demand trend. -/
structure Workflow4ResultM where
  forecast_table : List (String × ℚ)
  monthly_trend : List (String × String × ℚ)
deriving DecidableEq

/-- The moving-average degradation used inline by
`extract_real_data_from_excel`: mean of the last three values, mean of
two, the lone value, or `0.0`. -/
def forecastOf (historical : List PyFloat) : PyFloat :=
  if 3 ≤ historical.length then pyMean (lastN 3 historical)
  else if 2 ≤ historical.length then pyMean historical
  else if 1 ≤ historical.length then historical.getLastD (.fin 0)
  else .fin 0

/-- `chart_data_builder.extract_real_data_from_excel`: recomputes the
overall and per-ingredient historical series directly from the classified
rows (fixed fiscal columns D–O) with a flat 6-month forecast. -/
def extract_real_data_from_excel (ingredient_list : List (String × List IngRow))
    (annual_data : List IngRow) : ChartOut :=
  let overall_monthly_values : List (String × PyFloat) :=
    (FISCAL_MONTHS.zip ExcelX.MONTH_COLUMNS).foldl (fun acc mc =>
      let month_values := annual_data.filterMap (fun row =>
        if row.set_type = "previous" ∨ row.set_type = "current" then
          match ExcelX.normalize_numeric_value (rowGet row mc.2) with
          | some v => if pyNeZero v then some v else none
          | none => none
        else none)
      if month_values.isEmpty then acc
      else
        let total := pySum month_values
        if ¬ pyIsNan total = true ∧ pyGtZero total = true then acc ++ [(mc.1, total)]
        else acc) []
  let overall : SeriesOut :=
    if overall_monthly_values.isEmpty then ⟨[], [], []⟩
    else
      let overall_pairs := FISCAL_MONTHS.filterMap
        (fun m => overall_monthly_values.find? (fun p => p.1 = m))
      let overall_historical := overall_pairs.map (fun p => p.2)
      ⟨overall_pairs.map (fun p => p.1), overall_historical,
        List.replicate 6 (forecastOf overall_historical)⟩
  let ingredients : List (String × SeriesOut) :=
    ingredient_list.foldl (fun acc ing =>
      if ing.2.isEmpty then acc
      else
        let monthly_series := ExcelX.extract_from_ingredient_section ing.2 (upperStr ing.1)
        if monthly_series.isEmpty then acc
        else
          let ing_pairs := FISCAL_MONTHS.filterMap (fun m =>
            match monthly_series.find? (fun p => p.1 = m) with
            | some p => if ¬ pyIsNan p.2 = true ∧ pyGtZero p.2 = true then some p else none
            | none => none)
          let ing_historical := ing_pairs.map (fun p => p.2)
          acc ++ [(upperStr ing.1,
            ⟨ing_pairs.map (fun p => p.1), ing_historical,
              List.replicate 6 (forecastOf ing_historical)⟩)]) []
  ⟨overall, ingredients⟩

/-- `chart_data_builder.build_chart_data_from_workflow4`: despite taking
the pipeline result, the body only ever calls
`extract_real_data_from_excel(ingredient_list, annual_data)` and copies
its `overall`/`ingredients` fields. -/
def build_chart_data_from_workflow4 (_result : Workflow4ResultM)
    (ingredient_list : List (String × List IngRow)) (annual_data : List IngRow) : ChartOut :=
  let extracted := extract_real_data_from_excel ingredient_list annual_data
  ⟨extracted.overall, extracted.ingredients⟩

end ChartB

/-- **C3 counterexample.** Two pipeline results with different non-empty
monthly trends and different forecast tables produce byte-identical chart
data (here, an empty chart that reflects none of the pipeline's numbers),
so the output never depends on the pipeline's tables — refuting the
claim that it reads them whenever a monthly trend is present. -/
theorem claim_C3_counterexample :
    (ChartB.Workflow4ResultM.mk [("MCT360", 999)] [("April", "MCT360", 100)]).monthly_trend ≠ [] ∧
    (ChartB.Workflow4ResultM.mk [("MCT360", 111)] [("May", "MCT360", 200)]).monthly_trend ≠ [] ∧
    (ChartB.Workflow4ResultM.mk [("MCT360", 999)] [("April", "MCT360", 100)]).forecast_table ≠
      (ChartB.Workflow4ResultM.mk [("MCT360", 111)] [("May", "MCT360", 200)]).forecast_table ∧
    ChartB.build_chart_data_from_workflow4
        (ChartB.Workflow4ResultM.mk [("MCT360", 999)] [("April", "MCT360", 100)]) [] [] =
      ChartB.build_chart_data_from_workflow4
        (ChartB.Workflow4ResultM.mk [("MCT360", 111)] [("May", "MCT360", 200)]) [] [] ∧
    (ChartB.build_chart_data_from_workflow4
        (ChartB.Workflow4ResultM.mk [("MCT360", 999)] [("April", "MCT360", 100)]) [] []).ingredients
      = [] := by
  refine ⟨by decide, by decide, by decide, rfl, rfl⟩

/-- **C3 (amended).** `build_chart_data_from_workflow4` ignores the
pipeline result entirely: its output is identical for any two pipeline
results and always equals the structure recomputed by
`extract_real_data_from_excel(ingredient_list, annual_data)` — the
"fallback" is unconditional, not reserved for an empty monthly trend. -/
theorem claim_C3_chart_data_ignores_pipeline (r r' : ChartB.Workflow4ResultM)
    (il : List (String × List IngRow)) (ad : List IngRow) :
    ChartB.build_chart_data_from_workflow4 r il ad =
      ChartB.build_chart_data_from_workflow4 r' il ad ∧
    ChartB.build_chart_data_from_workflow4 r il ad =
      ⟨(ChartB.extract_real_data_from_excel il ad).overall,
       (ChartB.extract_real_data_from_excel il ad).ingredients⟩ :=
  ⟨rfl, rfl⟩

/-- Python float multiplication (cases the repository exercises). -/
def pyMul : PyFloat → PyFloat → PyFloat
  | .nan, _ => .nan
  | _, .nan => .nan
  | .fin a, .fin b => .fin (a * b)
  | .inf, .fin b => if b = 0 then .nan else if 0 < b then .inf else .neginf
  | .fin a, .inf => if a = 0 then .nan else if 0 < a then .inf else .neginf
  | .neginf, .fin b => if b = 0 then .nan else if 0 < b then .neginf else .inf
  | .fin a, .neginf => if a = 0 then .nan else if 0 < a then .neginf else .inf
  | .inf, .inf => .inf
  | .neginf, .neginf => .inf
  | .inf, .neginf => .neginf
  | .neginf, .inf => .neginf

/-- Python `max(0.0, x)`: comparisons against `nan` are false, so the
first argument `0.0` survives. -/
def pyMax0 : PyFloat → PyFloat
  | .fin q => .fin (max 0 q)
  | .inf => .inf
  | .neginf => .fin 0
  | .nan => .fin 0

/-- Python `round(q, d)` for an exact rational.  (CPython uses
round-half-to-even on binary floats; the two agree on every value the
claims evaluate, none of which is a half-way case.) -/
def roundQ (q : ℚ) (d : ℕ) : ℚ := ((round (q * 10 ^ d) : ℤ) : ℚ) / 10 ^ d

/-- `round(x, d)` on a Python float (non-finite values round to
themselves). -/
def roundTo (x : PyFloat) (d : ℕ) : PyFloat :=
  match x with
  | .fin q => .fin (roundQ q d)
  | y => y

/-! ## §workflow4 — forecast and reporting pipeline -/

namespace W4

/-- `workflow4.MONTH_NAMES` — *calendar* order, January first (unlike the
fiscal order used everywhere else in the repository). -/
def MONTH_NAMES : List String :=
  ["January", "February", "March", "April", "May", "June",
   "July", "August", "September", "October", "November", "December"]

/-- `workflow4.MONTH_VARIANTS`: variant text to 1-based calendar month
number, insertion order preserved. -/
def MONTH_VARIANTS : List (String × ℕ) :=
  [("jan", 1), ("january", 1), ("01", 1), ("1", 1),
   ("feb", 2), ("february", 2), ("02", 2), ("2", 2),
   ("mar", 3), ("march", 3), ("03", 3), ("3", 3),
   ("apr", 4), ("april", 4), ("04", 4), ("4", 4),
   ("may", 5), ("05", 5), ("5", 5),
   ("jun", 6), ("june", 6), ("06", 6), ("6", 6),
   ("jul", 7), ("july", 7), ("07", 7), ("7", 7),
   ("aug", 8), ("august", 8), ("08", 8), ("8", 8),
   ("sep", 9), ("sept", 9), ("september", 9), ("09", 9), ("9", 9),
   ("oct", 10), ("october", 10), ("10", 10),
   ("nov", 11), ("november", 11), ("11", 11),
   ("dec", 12), ("december", 12), ("12", 12)]

/-- `workflow4.PRODUCT_KEYS`. -/
def PRODUCT_KEYS : List String :=
  ["product", "product_name", "item", "item_name", "line", "sku", "code", "品目"]

/-- `workflow4.MONTH_KEYS`. -/
def MONTH_KEYS : List String := ["month", "month_name", "period", "月"]

/-- `workflow4.DEMAND_KEYS`. -/
def DEMAND_KEYS : List String := ["demand", "actual_demand", "usage", "consumption", "出荷", "需要"]

/-- `workflow4.CONSUMPTION_KEYS`. -/
def CONSUMPTION_KEYS : List String :=
  ["per_unit_consumption", "per unit consumption", "per_unit", "unit_consumption",
   "consumption_per_unit", "raw_material_per_unit", "unit usage"]

/-- `workflow4._canonical_month`. -/
def canonical_month (v : Cell) : Option String :=
  if cellIsNA v then none
  else
    let text := lowerStr (trimStr (cellStr v))
    if text = "" then none
    else
      let text := if strEndsWithChar text '月' then removeChar text '月' else text
      let text := removeChar text '.'
      match MONTH_VARIANTS.find? (fun p => p.1 = text) with
      | some p => MONTH_NAMES.getD (p.2 - 1) "" |> some
      | none =>
        if strIsDigit text then
          let idx := digitsToNat text.data
          if 1 ≤ idx ∧ idx ≤ 12 then some (MONTH_NAMES.getD (idx - 1) "") else none
        else none

/-- `workflow4._month_index`: 1-based *calendar* month index. -/
def month_index (v : Cell) : Option ℕ :=
  (canonical_month v).map (fun c => MONTH_NAMES.findIdx (fun m => m = c) + 1)

/-- `workflow4._coerce_number`: numeric input is cast to float unchecked
(`pd.isna` is the caller's job); string input is parsed after removing
commas; anything else is `None`. -/
def coerce_number (v : Cell) : Option PyFloat :=
  match v with
  | .empty => some .nan
  | .num x => some x
  | .int n => some (.fin n)
  | .str s => pyFloatOfString (removeChar s ',')

/-- `pd.to_numeric(value, errors="coerce")` per element: unparseable and
missing values become `NaN`, modelled as `none`. -/
def toNumericCoerce (v : Cell) : Option PyFloat :=
  match v with
  | .empty => none
  | .num .nan => none
  | .num x => some x
  | .int n => some (.fin n)
  | .str s =>
    match pyFloatOfString s with
    | some .nan => none
    | some x => some x
    | none => none

/-- An input data frame: header labels plus rows of cells. -/
structure Frame where
  headers : List String
  rows : List (List Cell)

/-- `workflow4._find_column`: first column whose stripped, lowered name
matches a candidate exactly or contains one as a substring. -/
def find_column (headers : List String) (candidates : List String) : Option String :=
  headers.find? (fun col =>
    let cl := lowerStr (trimStr col)
    candidates.any (fun cand => lowerStr cand = cl) ||
      candidates.any (fun cand => strContains cl (lowerStr cand)))

/-- Index of a (stripped) header label. -/
def colIdx (headers : List String) (name : String) : Option ℕ :=
  headers.findIdx? (fun h => h = name)

/-- `row.get(column)` by header label (missing labels read as `NaN`). -/
def getCol (headers : List String) (row : List Cell) (name : String) : Cell :=
  match colIdx headers name with
  | some i => row.getD i Cell.empty
  | none => Cell.empty

/-- `workflow4._detect_month_columns`: a column maps to a canonical month
if its header does, else if one of its first 4 non-empty (stringified,
stripped) sample values does. -/
def detect_month_columns (headers : List String) (rows : List (List Cell)) :
    List (String × String) :=
  headers.filterMap (fun col =>
    match canonical_month (Cell.str col) with
    | some m => some (col, m)
    | none =>
      let samples := ((rows.map (fun row => getCol headers row col)).filterMap
        (fun c => if cellIsNA c then none else some (trimStr (cellStr c)))).take 4
      (samples.findSome? (fun s => canonical_month (Cell.str s))).map (fun m => (col, m)))

/-- One row of the normalized long table. -/
structure W4Row where
  product : String
  month : Cell
  demand : Option PyFloat
  perUnit : Option PyFloat
deriving DecidableEq

/-- The long/tidy-layout branch of `_normalize_input_dataframe`. -/
def longLayout (headers : List String) (rows : List (List Cell))
    (product_col month_col demand_col consumption_col : String) : List W4Row :=
  rows.filterMap (fun row =>
    let pv := getCol headers row product_col
    let mv := getCol headers row month_col
    let dv := getCol headers row demand_col
    let cv := getCol headers row consumption_col
    if cellIsNA pv ∨ cellIsNA mv ∨ cellIsNA dv ∨ cellIsNA cv then none
    else
      let product := trimStr (cellStr pv)
      let month : Cell :=
        match canonical_month mv with
        | some m => Cell.str m
        | none => mv
      match toNumericCoerce dv, toNumericCoerce cv with
      | some d, some c => some ⟨product, month, some d, some c⟩
      | _, _ => none)

/-- The wide-layout record builder of `_normalize_input_dataframe`: one
long record per (row, month-column) pair whose cell is numeric and whose
row's product cell is not itself a month label; the per-unit cell is
carried raw and coerced numerically (as the subsequent `pd.to_numeric`
does column-wise). -/
def wideRecords (headers : List String) (rows : List (List Cell))
    (product_col consumption_col : String) (month_columns : List (String × String)) :
    List W4Row :=
  (rows.map (fun row =>
    let pv := getCol headers row product_col
    if cellIsNA pv then []
    else
      let product_text := trimStr (cellStr pv)
      if product_text = "" ∨ (canonical_month (Cell.str product_text)).isSome then []
      else
        let per_unit := getCol headers row consumption_col
        month_columns.filterMap (fun mc =>
          let cv := getCol headers row mc.1
          if cellIsNA cv then none
          else if (match cv with
                   | .str s => (canonical_month (Cell.str s)).isSome
                   | _ => false) then none
          else
            (coerce_number cv).map (fun d =>
              ⟨product_text, Cell.str mc.2, some d, toNumericCoerce per_unit⟩)))).flatten

/-- `groupby("product")[...].ffill()`: forward fill within each product
group, walking the long table in order with a per-product carry. -/
def ffillByProduct (l : List W4Row) : List W4Row :=
  go [] l
where
  go : List (String × PyFloat) → List W4Row → List W4Row
  | _, [] => []
  | seen, r :: rest =>
    match r.perUnit with
    | some v => r :: go ((r.product, v) :: seen) rest
    | none =>
      match seen.find? (fun p => p.1 = r.product) with
      | some p => { r with perUnit := some p.2 } :: go seen rest
      | none => r :: go seen rest

/-- `.bfill()` on the whole series (NOT per group): fill each missing
value with the next later non-missing one, across product boundaries. -/
def bfillGlobal (l : List W4Row) : List W4Row :=
  (go l.reverse none).reverse
where
  go : List W4Row → Option PyFloat → List W4Row
  | [], _ => []
  | r :: rest, carry =>
    match r.perUnit with
    | some v => r :: go rest (some v)
    | none =>
      match carry with
      | some v => { r with perUnit := some v } :: go rest carry
      | none => r :: go rest none

/-- The fatal message when no per-unit-consumption column exists
(quotes around the sheet wording elided). -/
def missingConsumptionColumnMsg : String :=
  "Unable to locate the per-unit consumption column. Please ensure the uploaded file retains the column produced by workflow 3."

/-- The fatal message when no month columns are detected. -/
def noMonthColumnsMsg : String :=
  "Could not detect any monthly columns. Ensure headers or the first few rows include month names (e.g., April, 11月, etc.)."

/-- The fatal message when the long table is empty. -/
def noRecordsMsg : String :=
  "No monthly demand values could be parsed from the supplied sheet."

/-- The fatal message when per-unit values remain missing after filling. -/
def missingConsumptionValuesMsg : String :=
  "Per-unit consumption values are missing for some products. Please ensure workflow 3 outputs are included."

/-- `workflow4._normalize_input_dataframe`. -/
def normalize_input_dataframe (f : Frame) : Except String (List W4Row) :=
  let headers := f.headers.map trimStr
  let product_col := (find_column headers PRODUCT_KEYS).getD (headers.headD "")
  let month_col := find_column headers MONTH_KEYS
  let demand_col := find_column headers DEMAND_KEYS
  let consumption_col := find_column headers CONSUMPTION_KEYS
  match month_col, demand_col, consumption_col with
  | some mc, some dc, some cc => .ok (longLayout headers f.rows product_col mc dc cc)
  | _, _, _ =>
    match consumption_col with
    | none => .error missingConsumptionColumnMsg
    | some cc =>
      let month_columns := detect_month_columns headers f.rows
      if month_columns.isEmpty then .error noMonthColumnsMsg
      else
        let records := wideRecords headers f.rows product_col cc month_columns
        if records.isEmpty then .error noRecordsMsg
        else
          let filled := bfillGlobal (ffillByProduct records)
          if filled.any (fun r => r.perUnit.isNone) then .error missingConsumptionValuesMsg
          else .ok (filled.filter (fun r =>
            match r.demand with
            | some d => ¬ pyIsNan d
            | none => false))

/-- The wide-layout long table of a frame, before the fill steps (a
convenience handle on the intermediate `records` of
`_normalize_input_dataframe`). -/
def wideRecordsOf (f : Frame) : List W4Row :=
  let headers := f.headers.map trimStr
  let product_col := (find_column headers PRODUCT_KEYS).getD (headers.headD "")
  match find_column headers CONSUMPTION_KEYS with
  | some cc => wideRecords headers f.rows product_col cc (detect_month_columns headers f.rows)
  | none => []

end W4

/-- Code-point lexicographic comparison of character lists (Python's
string `<`). -/
def charListLt : List Char → List Char → Bool
  | [], [] => false
  | [], _ :: _ => true
  | _ :: _, [] => false
  | a :: as, b :: bs =>
    if a.toNat < b.toNat then true
    else if b.toNat < a.toNat then false
    else charListLt as bs

/-- Python string `<`. -/
def strLtB (a b : String) : Bool := charListLt a.data b.data

/-- Insert into a list sorted by a Boolean `le`. -/
def insertByLe {α : Type} (le : α → α → Bool) (a : α) : List α → List α
  | [] => [a]
  | x :: xs => if le a x then a :: x :: xs else x :: insertByLe le a xs

/-- Insertion sort by a Boolean `le`. -/
def sortByLe {α : Type} (le : α → α → Bool) (l : List α) : List α :=
  l.foldr (insertByLe le) []

namespace W4

/-- Sorted distinct product names of the long table (`groupby("product")`
iterates groups in sorted key order). -/
def productsOf (rows : List W4Row) : List String :=
  sortByLe (fun a b => ¬ strLtB b a) (rows.map (fun r => r.product)).dedup

/-- The rows of one product's group, in table order. -/
def groupRows (rows : List W4Row) (p : String) : List W4Row :=
  rows.filter (fun r => r.product = p)

/-- `cleaned` for one product's group in `_build_forecast_tables`: drop
rows with missing demand, attach the calendar month index, drop rows
without one, and sort chronologically by that index. -/
def cleanedOf (group : List W4Row) : List W4Row :=
  sortByLe
    (fun a b => (month_index a.month).getD 0 ≤ (month_index b.month).getD 0)
    ((group.filter (fun r =>
        match r.demand with
        | some d => ¬ pyIsNan d
        | none => false)).filter
      (fun r => (month_index r.month).isSome))

/-- One row of the pipeline's forecast table (`Product`,
`Forecast Demand`, `Per Unit Consumption`, `Raw Material Needed`). -/
structure W4Record where
  product : String
  forecast_demand : PyFloat
  per_unit_consumption : PyFloat
  raw_material_needed : PyFloat
deriving DecidableEq

/-- The fatal per-product message of `_build_forecast_tables`
(surrounding quotes elided). -/
def missingPerUnitMsg (p : String) : String :=
  "Missing per-unit consumption values for product " ++ p ++ "."

/-- The fatal message when no product yields a forecast row. -/
def emptyForecastTableMsg : String :=
  "Forecast table is empty. Please provide historical demand."

/-- The per-product body of `_build_forecast_tables`: `none` when the
cleaned group is empty (the product is skipped), an error when every
per-unit value is absent, else the forecast record and its method label. -/
def forecastForGroup (p : String) (group : List W4Row) :
    Except String (Option (W4Record × String)) :=
  let cleaned := cleanedOf group
  if cleaned.isEmpty then .ok none
  else
    let demand_series := cleaned.filterMap (fun r => r.demand)
    let fc :=
      if 3 ≤ demand_series.length then
        (pyMean (lastN 3 demand_series), "3-month moving average")
      else if 2 ≤ demand_series.length then
        (pyMean demand_series, toString demand_series.length ++ "-month average")
      else
        (if 0 < demand_series.length then demand_series.getLastD (.fin 0) else .fin 0,
          "single period or insufficient data")
    let forecast_value := pyMax0 fc.1
    let per_unit_series := cleaned.filterMap (fun r => r.perUnit)
    if per_unit_series.isEmpty then .error (missingPerUnitMsg p)
    else
      let per_unit_value := per_unit_series.getLastD (.fin 0)
      .ok (some
        (⟨p, roundTo forecast_value 2, roundTo per_unit_value 4,
          roundTo (pyMul forecast_value per_unit_value) 2⟩, fc.2))

end W4

/-- Effectful map over `Except`, stopping at the first error — the
embedding of a Python `for` loop whose body may `raise`. -/
def mapMExcept {α β ε : Type} (f : α → Except ε β) : List α → Except ε (List β)
  | [] => .ok []
  | a :: l =>
    match f a with
    | .error e => .error e
    | .ok b =>
      match mapMExcept f l with
      | .error e => .error e
      | .ok bs => .ok (b :: bs)

namespace W4

/-- `workflow4._build_forecast_tables` (window 3), restricted to the
forecast table and method map; the demand-trend frame assembled for
charting is not modelled (no claim concerns it). -/
def build_forecast_tables (rows : List W4Row) :
    Except String (List W4Record × List (String × String)) :=
  match mapMExcept
      (fun p => (forecastForGroup p (groupRows rows p)).map (fun o => (p, o)))
      (productsOf rows) with
  | .error e => .error e
  | .ok results =>
    let forecast_table := results.filterMap (fun pr => pr.2.map (fun r => r.1))
    let methods := results.filterMap (fun pr => pr.2.map (fun r => (pr.1, r.2)))
    if forecast_table.isEmpty then .error emptyForecastTableMsg
    else .ok (forecast_table, methods)

end W4

/-- Unfolding equation for the backward-fill worker. -/
theorem bfill_go_cons (r : W4.W4Row) (rest : List W4.W4Row) (carry : Option PyFloat) :
    W4.bfillGlobal.go (r :: rest) carry =
      (match r.perUnit with
       | some v => r :: W4.bfillGlobal.go rest (some v)
       | none =>
         match carry with
         | some v => { r with perUnit := some v } :: W4.bfillGlobal.go rest carry
         | none => r :: W4.bfillGlobal.go rest none) := rfl

/-- After the backward-fill pass has a carry value, every later entry is
filled. -/
theorem bfill_go_some_all_filled (xs : List W4.W4Row) (v : PyFloat) :
    ∀ r ∈ W4.bfillGlobal.go xs (some v), r.perUnit.isSome = true := by
  induction xs generalizing v with
  | nil => intro r hr; cases hr
  | cons x rest ih =>
    intro r hr
    rw [bfill_go_cons] at hr
    cases hx : x.perUnit with
    | some w =>
      rw [hx] at hr
      rcases List.mem_cons.mp hr with rfl | hr
      · simp [hx]
      · exact ih w r hr
    | none =>
      rw [hx] at hr
      rcases List.mem_cons.mp hr with rfl | hr
      · simp
      · exact ih v r hr

/-- With no carry yet, the backward fill leaves a missing value exactly
when the *first* entry of the processed list is missing. -/
theorem bfill_go_none_any_missing (xs : List W4.W4Row) :
    (W4.bfillGlobal.go xs none).any (fun r => r.perUnit.isNone) = true ↔
      ∃ h, xs.head? = some h ∧ h.perUnit = none := by
  cases xs with
  | nil =>
    constructor
    · intro h
      cases h
    · rintro ⟨h, hh, -⟩
      cases hh
  | cons x rest =>
    rw [bfill_go_cons]
    cases hx : x.perUnit with
    | some w =>
      simp only [List.any_cons]
      constructor
      · intro h
        rcases Bool.or_eq_true_iff.mp h with h | h
        · simp [hx] at h
        · rcases List.any_eq_true.mp h with ⟨r, hr, hrn⟩
          have := bfill_go_some_all_filled rest w r hr
          simp [Option.isNone_iff_eq_none] at hrn
          rw [hrn] at this
          cases this
      · rintro ⟨h, hh, hnone⟩
        cases Option.some.inj hh
        rw [hx] at hnone
        cases hnone
    | none =>
      constructor
      · intro _
        exact ⟨x, rfl, hx⟩
      · intro _
        simp [hx]

/-- A missing value survives the global backward fill iff the list's
*last* entry is missing. -/
theorem bfillGlobal_any_missing (l : List W4.W4Row) :
    ((W4.bfillGlobal l).any (fun r => r.perUnit.isNone)) = true ↔
      ∃ r, l.getLast? = some r ∧ r.perUnit = none := by
  unfold W4.bfillGlobal
  rw [List.any_reverse, bfill_go_none_any_missing, List.head?_reverse]

/-- **C6.** Whenever the long/tidy layout is not fully identifiable and no
per-unit-consumption column matches any candidate key,
`_normalize_input_dataframe` fails with the fatal missing-consumption
-column error — before month detection is even attempted, so detectable
month columns do not save the run. -/
theorem claim_C6_missing_consumption_column_is_fatal (f : W4.Frame)
    (hcc : W4.find_column (f.headers.map trimStr) W4.CONSUMPTION_KEYS = none) :
    W4.normalize_input_dataframe f = .error W4.missingConsumptionColumnMsg := by
  unfold W4.normalize_input_dataframe
  rcases hm : W4.find_column (f.headers.map trimStr) W4.MONTH_KEYS with _ | mc <;>
    rcases hd : W4.find_column (f.headers.map trimStr) W4.DEMAND_KEYS with _ | dc <;>
      simp [hm, hd, hcc]

/-- Witness for C6: a frame whose header holds the months April and May
(so month columns are detectable) but no consumption-like column; the
run fails with the missing-consumption-column error. -/
theorem claim_C6_witness :
    W4.detect_month_columns
        ((W4.Frame.mk ["Product", "April", "May"]
          [[Cell.str "A", Cell.num (.fin 1), Cell.num (.fin 2)]]).headers.map trimStr)
        (W4.Frame.mk ["Product", "April", "May"]
          [[Cell.str "A", Cell.num (.fin 1), Cell.num (.fin 2)]]).rows ≠ [] ∧
    W4.normalize_input_dataframe
        (W4.Frame.mk ["Product", "April", "May"]
          [[Cell.str "A", Cell.num (.fin 1), Cell.num (.fin 2)]]) =
      .error W4.missingConsumptionColumnMsg := by
  constructor
  · decide
  · exact claim_C6_missing_consumption_column_is_fatal
      (W4.Frame.mk ["Product", "April", "May"]
        [[Cell.str "A", Cell.num (.fin 1), Cell.num (.fin 2)]]) (by decide)

/-- **C7 counterexample.** A wide-layout frame in which product `A` has
*no* per-unit-consumption value in any of its rows while the later
product `B` does: the claimed fatal error is not raised — normalization
succeeds and `A`'s record carries the value `2` taken from `B`'s row,
because the `.bfill()` step runs over the whole column, not per group. -/
theorem claim_C7_counterexample :
    (W4.wideRecordsOf (W4.Frame.mk ["Product", "per unit consumption", "April"]
        [[Cell.str "A", Cell.empty, Cell.num (.fin 10)],
         [Cell.str "B", Cell.num (.fin 2), Cell.num (.fin 20)]])).filter
        (fun r => r.product = "A") =
      [⟨"A", Cell.str "April", some (.fin 10), none⟩] ∧
    W4.normalize_input_dataframe (W4.Frame.mk ["Product", "per unit consumption", "April"]
        [[Cell.str "A", Cell.empty, Cell.num (.fin 10)],
         [Cell.str "B", Cell.num (.fin 2), Cell.num (.fin 20)]]) =
      .ok [⟨"A", Cell.str "April", some (.fin 10), some (.fin 2)⟩,
           ⟨"B", Cell.str "April", some (.fin 20), some (.fin 2)⟩] := by
  constructor
  · rfl
  · rfl

/-- **C7 (amended).** In the wide-layout fallback, missing per-unit
values are forward-filled within each product group, but the subsequent
back-fill runs over the whole long table, crossing product boundaries;
the run aborts with the fatal missing-per-unit error iff, after the
group-wise forward fill, the *last* long-table row still has no value —
so a product with no consumption value of its own silently inherits the
next later product's value instead of aborting. -/
theorem claim_C7_backfill_crosses_product_groups (f : W4.Frame)
    (hlong : W4.find_column (f.headers.map trimStr) W4.MONTH_KEYS = none ∨
      W4.find_column (f.headers.map trimStr) W4.DEMAND_KEYS = none)
    (hcc : (W4.find_column (f.headers.map trimStr) W4.CONSUMPTION_KEYS).isSome = true)
    (hmc : W4.detect_month_columns (f.headers.map trimStr) f.rows ≠ [])
    (hrec : W4.wideRecordsOf f ≠ []) :
    W4.normalize_input_dataframe f = .error W4.missingConsumptionValuesMsg ↔
      ∃ r, (W4.ffillByProduct (W4.wideRecordsOf f)).getLast? = some r ∧ r.perUnit = none := by
  rcases Option.isSome_iff_exists.mp hcc with ⟨cc, hccp⟩
  have hwr : W4.wideRecordsOf f =
      W4.wideRecords (f.headers.map trimStr) f.rows
        ((W4.find_column (f.headers.map trimStr) W4.PRODUCT_KEYS).getD
          ((f.headers.map trimStr).headD "")) cc
        (W4.detect_month_columns (f.headers.map trimStr) f.rows) := by
    unfold W4.wideRecordsOf
    simp only [hccp]
  have hmcE : (W4.detect_month_columns (f.headers.map trimStr) f.rows).isEmpty = false := by
    simpa [List.isEmpty_iff] using hmc
  have hrecE : (W4.wideRecords (f.headers.map trimStr) f.rows
      ((W4.find_column (f.headers.map trimStr) W4.PRODUCT_KEYS).getD
        ((f.headers.map trimStr).headD "")) cc
      (W4.detect_month_columns (f.headers.map trimStr) f.rows)).isEmpty = false := by
    rw [← hwr]
    simpa [List.isEmpty_iff] using hrec
  have hstep : W4.normalize_input_dataframe f =
      (if (W4.bfillGlobal (W4.ffillByProduct (W4.wideRecordsOf f))).any
          (fun r => r.perUnit.isNone)
       then .error W4.missingConsumptionValuesMsg
       else .ok ((W4.bfillGlobal (W4.ffillByProduct (W4.wideRecordsOf f))).filter (fun r =>
          match r.demand with
          | some d => ¬ pyIsNan d
          | none => false))) := by
    rw [hwr]
    unfold W4.normalize_input_dataframe
    rcases hmx : W4.find_column (f.headers.map trimStr) W4.MONTH_KEYS with _ | mc <;>
      rcases hdx : W4.find_column (f.headers.map trimStr) W4.DEMAND_KEYS with _ | dc
    · simp only [hmx, hdx, hccp, hmcE, hrecE, Bool.false_eq_true, if_false]
    · simp only [hmx, hdx, hccp, hmcE, hrecE, Bool.false_eq_true, if_false]
    · simp only [hmx, hdx, hccp, hmcE, hrecE, Bool.false_eq_true, if_false]
    · rcases hlong with hl | hl
      · rw [hmx] at hl
        cases hl
      · rw [hdx] at hl
        cases hl
  have key := bfillGlobal_any_missing (W4.ffillByProduct (W4.wideRecordsOf f))
  rw [hstep]
  by_cases hany : ((W4.bfillGlobal (W4.ffillByProduct (W4.wideRecordsOf f))).any
      (fun r => r.perUnit.isNone)) = true
  · rw [if_pos hany]
    exact iff_of_true rfl (key.mp hany)
  · rw [if_neg hany]
    exact iff_of_false (by simp) (fun hex => hany (key.mpr hex))

/-- Witness for C7's amended statement: with the all-absent product `A`
*last* in the table (no later row to borrow from), the fatal
missing-values error does fire. -/
theorem claim_C7_witness :
    W4.normalize_input_dataframe (W4.Frame.mk ["Product", "per unit consumption", "April"]
        [[Cell.str "B", Cell.num (.fin 2), Cell.num (.fin 20)],
         [Cell.str "A", Cell.empty, Cell.num (.fin 10)]]) =
      .error W4.missingConsumptionValuesMsg := by
  exact (claim_C7_backfill_crosses_product_groups
      (W4.Frame.mk ["Product", "per unit consumption", "April"]
        [[Cell.str "B", Cell.num (.fin 2), Cell.num (.fin 20)],
         [Cell.str "A", Cell.empty, Cell.num (.fin 10)]])
      (Or.inl (by decide)) (by decide) (by decide) (by decide)).mpr
    ⟨⟨"A", Cell.str "April", some (.fin 10), none⟩, by decide, rfl⟩

/-- `Except` success test. -/
def exceptIsOk {ε α : Type} : Except ε α → Bool
  | .ok _ => true
  | .error _ => false

/-- If every call succeeds, `mapMExcept` succeeds and every input's
result value is in the output list. -/
theorem mapMExcept_ok_all {α β ε : Type} (f : α → Except ε β) (l : List α)
    (h : ∀ a ∈ l, exceptIsOk (f a) = true) :
    ∃ ys, mapMExcept f l = .ok ys ∧ ∀ a ∈ l, ∃ b, f a = .ok b ∧ b ∈ ys := by
  induction l with
  | nil =>
    refine ⟨[], rfl, ?_⟩
    intro a ha
    cases ha
  | cons x t ih =>
    have hx := h x (List.mem_cons_self x t)
    cases hfx : f x with
    | error e =>
      rw [hfx] at hx
      cases hx
    | ok b =>
      rcases ih (fun a ha => h a (List.mem_cons_of_mem x ha)) with ⟨ys, hys, hmem⟩
      refine ⟨b :: ys, ?_, ?_⟩
      · unfold mapMExcept
        rw [hfx, hys]
      · intro a ha
        rcases List.mem_cons.mp ha with rfl | ha
        · exact ⟨b, hfx, List.mem_cons_self _ _⟩
        · rcases hmem a ha with ⟨c, hc, hcm⟩
          exact ⟨c, hc, List.mem_cons_of_mem _ hcm⟩

/-- **C1.** For any normalized Workflow-4 input in which product `p`'s
cleaned, chronologically sorted group has exactly the four demand values
10, 20, 30, 40 and most recent non-absent per-unit consumption 5/2 (and
every product's group computes without a fatal error),
`_build_forecast_tables` produces for `p` the record with
Forecast Demand 30 (mean of the last three values), Per Unit Consumption
5/2, Raw Material Needed 75, and the method label
`"3-month moving average"`. -/
theorem claim_C1_forecast_three_month_moving_average (rows : List W4.W4Row) (p : String)
    (hp : p ∈ W4.productsOf rows)
    (hdemand : (W4.cleanedOf (W4.groupRows rows p)).filterMap (fun r => r.demand) =
      [PyFloat.fin 10, PyFloat.fin 20, PyFloat.fin 30, PyFloat.fin 40])
    (hpu : ((W4.cleanedOf (W4.groupRows rows p)).filterMap (fun r => r.perUnit)).getLast? =
      some (PyFloat.fin (Rat.divInt 5 2)))
    (hok : ∀ q ∈ W4.productsOf rows,
      exceptIsOk (W4.forecastForGroup q (W4.groupRows rows q)) = true) :
    ∃ table methods, W4.build_forecast_tables rows = .ok (table, methods) ∧
      (⟨p, .fin 30, .fin (Rat.divInt 5 2), .fin 75⟩ : W4.W4Record) ∈ table ∧
      (p, "3-month moving average") ∈ methods := by
  have hcleanedNE : (W4.cleanedOf (W4.groupRows rows p)).isEmpty = false := by
    cases hc : W4.cleanedOf (W4.groupRows rows p) with
    | nil =>
      rw [hc] at hdemand
      cases hdemand
    | cons a t => rfl
  have hpusNE : ((W4.cleanedOf (W4.groupRows rows p)).filterMap (fun r => r.perUnit)).isEmpty
      = false := by
    cases hc : (W4.cleanedOf (W4.groupRows rows p)).filterMap (fun r => r.perUnit) with
    | nil =>
      rw [hc] at hpu
      cases hpu
    | cons a t => rfl
  have hpuLast : ((W4.cleanedOf (W4.groupRows rows p)).filterMap
      (fun r => r.perUnit)).getLastD (.fin 0) = PyFloat.fin (Rat.divInt 5 2) := by
    rw [List.getLastD_eq_getLast?, hpu]
    rfl
  have hfg : W4.forecastForGroup p (W4.groupRows rows p) =
      .ok (some (⟨p, .fin 30, .fin (Rat.divInt 5 2), .fin 75⟩, "3-month moving average")) := by
    unfold W4.forecastForGroup
    rw [if_neg (by rw [hcleanedNE]; exact Bool.false_ne_true)]
    rw [hdemand]
    rw [if_neg (by rw [hpusNE]; exact Bool.false_ne_true)]
    rw [if_pos (by norm_num)]
    rw [hpuLast]
    have hfv : pyMax0 (pyMean (lastN 3 [PyFloat.fin 10, PyFloat.fin 20,
        PyFloat.fin 30, PyFloat.fin 40])) = PyFloat.fin 30 := by
      show pyMax0 (pyMean [PyFloat.fin 20, PyFloat.fin 30, PyFloat.fin 40]) = PyFloat.fin 30
      unfold pyMean pySum pyDivNat
      simp only [List.foldl, pyAdd, pyMax0, List.length_cons, List.length_nil]
      norm_num
    rw [hfv]
    have h2 : roundTo (PyFloat.fin 30) 2 = PyFloat.fin 30 := by
      unfold roundTo roundQ
      norm_num [round_eq]
    have h4 : roundTo (PyFloat.fin (Rat.divInt 5 2)) 4 = PyFloat.fin (Rat.divInt 5 2) := by
      unfold roundTo roundQ
      rw [Rat.divInt_eq_div]
      norm_num [round_eq]
    have h75 : roundTo (pyMul (PyFloat.fin 30) (PyFloat.fin (Rat.divInt 5 2))) 2 =
        PyFloat.fin 75 := by
      unfold pyMul roundTo roundQ
      rw [Rat.divInt_eq_div]
      norm_num [round_eq]
    simp only [h2, h4, h75]
  have hokmap : ∀ q ∈ W4.productsOf rows,
      exceptIsOk ((W4.forecastForGroup q (W4.groupRows rows q)).map
        (fun o => (q, o))) = true := by
    intro q hq
    have := hok q hq
    cases hfq : W4.forecastForGroup q (W4.groupRows rows q) with
    | error e =>
      rw [hfq] at this
      cases this
    | ok b => rfl
  rcases mapMExcept_ok_all _ _ hokmap with ⟨ys, hys, hmem⟩
  rcases hmem p hp with ⟨b, hb, hbmem⟩
  rw [hfg] at hb
  simp only [Except.map] at hb
  have hbval : b = (p, some (((⟨p, .fin 30, .fin (Rat.divInt 5 2), .fin 75⟩ : W4.W4Record),
      "3-month moving average"))) := by
    cases hb
    rfl
  subst hbval
  unfold W4.build_forecast_tables
  rw [hys]
  have htblmem : (⟨p, .fin 30, .fin (Rat.divInt 5 2), .fin 75⟩ : W4.W4Record) ∈
      ys.filterMap (fun pr => pr.2.map (fun r => r.1)) :=
    List.mem_filterMap.mpr ⟨_, hbmem, rfl⟩
  have hmethmem : (p, "3-month moving average") ∈
      ys.filterMap (fun pr => pr.2.map (fun r => (pr.1, r.2))) :=
    List.mem_filterMap.mpr ⟨_, hbmem, rfl⟩
  have htblNE : (ys.filterMap (fun pr => pr.2.map (fun r => r.1))).isEmpty = false := by
    cases hc : ys.filterMap (fun pr => pr.2.map (fun r => r.1)) with
    | nil =>
      rw [hc] at htblmem
      cases htblmem
    | cons a t => rfl
  simp only [htblNE, Bool.false_eq_true, if_false]
  exact ⟨_, _, rfl, htblmem, hmethmem⟩

/-- A concrete normalized Workflow-4 table: one product with demands
10, 20, 30, 40 in chronological calendar order and per-unit consumption
5/2 throughout. -/
def c1Rows : List W4.W4Row :=
  [⟨"P1", Cell.str "January", some (.fin 10), some (.fin (Rat.divInt 5 2))⟩,
   ⟨"P1", Cell.str "February", some (.fin 20), some (.fin (Rat.divInt 5 2))⟩,
   ⟨"P1", Cell.str "March", some (.fin 30), some (.fin (Rat.divInt 5 2))⟩,
   ⟨"P1", Cell.str "April", some (.fin 40), some (.fin (Rat.divInt 5 2))⟩]

/-- Witness for C1 at the concrete table `c1Rows`. -/
theorem claim_C1_witness :
    ∃ table methods, W4.build_forecast_tables c1Rows = .ok (table, methods) ∧
      (⟨"P1", .fin 30, .fin (Rat.divInt 5 2), .fin 75⟩ : W4.W4Record) ∈ table ∧
      ("P1", "3-month moving average") ∈ methods :=
  claim_C1_forecast_three_month_moving_average c1Rows "P1" (by decide) (by decide)
    (by decide) (by decide)

/-- `Option.all pyFinite`: absent or finite. -/
def optFinite (o : Option PyFloat) : Bool := o.all pyFinite

namespace UniversalX

/-- `universal_extractor.detect_month_columns`: scan up to the first 10
rows × 30 columns for month labels (first column found per month wins, in
row-major order); fall back to the fixed D–O fiscal mapping if nothing is
found. -/
def detect_month_columns (g : Grid) : List (String × ℕ) :=
  let scanned := (List.range (min 10 g.rows.length)).foldl (fun acc r =>
    (List.range (min 30 g.ncols)).foldl (fun acc c =>
      match normalize_month_name (cellAt g r c) with
      | some m =>
        if (acc.find? (fun p => p.1 = m)).isSome then acc else acc ++ [(m, c)]
      | none => acc) acc) []
  if scanned.isEmpty then
    (List.range 12).filterMap (fun i =>
      if 3 + i < g.ncols then some (FISCAL_MONTHS.getD i "", 3 + i) else none)
  else scanned

/-- `universal_extractor.detect_product_blocks`: first 3 columns of every
row; known codes matched by two-way substring first, then any
product-like token (2+ characters, has a letter, not purely numeric). -/
def detect_product_blocks (g : Grid) : List (String × ℕ) :=
  ((List.range g.rows.length).foldl (fun acc r =>
    (List.range (min 3 g.ncols)).foldl
      (fun (acc : List (String × ℕ) × List String) c =>
        let prods := acc.1
        let seen := acc.2
        let cv := cellAt g r c
        if cellIsNA cv then acc
        else
          let cell_str := upperStr (trimStr (cellStr cv))
          if cell_str = "" ∨ cell_str.data.length < 2 then acc
          else
            match KNOWN_PRODUCTS.find?
                (fun kp => strContains cell_str kp || strContains kp cell_str) with
            | some kp =>
              if seen.contains kp then acc
              else (prods ++ [(kp, r)], seen ++ [kp])
            | none =>
              if cell_str.data.any Char.isAlpha && decide (2 ≤ cell_str.data.length) &&
                  !(strIsDigit (removeChar (removeChar cell_str '.') '-')) &&
                  !(seen.contains cell_str) then
                (prods ++ [(cell_str, r)], seen ++ [cell_str])
              else acc) acc) ([], [])).1

/-- `universal_extractor.extract_monthly_values_for_product`: per detected
month column, sum the `to_float`-parseable cells over the 30 rows starting
at the product's row; a month with none is `None`. -/
def extract_monthly_values_for_product (g : Grid) (product_row : ℕ)
    (month_columns : List (String × ℕ)) : List (String × Option PyFloat) :=
  month_columns.map (fun mc =>
    let month_values := (List.range' product_row
        (min (product_row + 30) g.rows.length - product_row)).filterMap (fun r =>
      if mc.2 < g.ncols then to_float (cellAt g r mc.2) else none)
    (mc.1, if month_values.isEmpty then none else some (pySum month_values)))

/-- One product's (or the overall) month-keyed pair of series. -/
structure ProductSeries where
  historical : List (String × PyFloat)
  predicted : List (String × PyFloat)
deriving DecidableEq

/-- Python dict assignment `m[k] = v` (replace in place or append). -/
def dictUpsert {β : Type} (m : List (String × β)) (k : String) (v : β) :
    List (String × β) :=
  if (m.find? (fun p => p.1 = k)).isSome then
    m.map (fun p => if p.1 = k then (k, v) else p)
  else m ++ [(k, v)]

/-- Python `old.update(new)`. -/
def dictMerge {β : Type} (old new : List (String × β)) : List (String × β) :=
  new.foldl (fun acc p => dictUpsert acc p.1 p.2) old

/-- Python `m.get(k)` / `k in m`. -/
def dictGet {β : Type} (m : List (String × β)) (k : String) : Option β :=
  (m.find? (fun p => p.1 = k)).map (fun p => p.2)

/-- `UniversalDataExtractor._calculate_predictions`: 3-month moving
average over the finite historical values in fiscal order, broadcast over
the 6 fiscal months after the last historical month; empty (never
zero-filled) without historical data. -/
def calculate_predictions (historical_data : List (String × PyFloat)) (num_months : ℕ) :
    List (String × PyFloat) :=
  if historical_data.isEmpty then []
  else
    let historical_values : List ℚ := FISCAL_MONTHS.filterMap (fun m =>
      match dictGet historical_data m with
      | some (.fin q) => some q
      | _ => none)
    if historical_values.isEmpty then []
    else
      let forecast_value : ℚ :=
        if 3 ≤ historical_values.length then PredU.qMean (lastN 3 historical_values)
        else if 2 ≤ historical_values.length then PredU.qMean historical_values
        else historical_values.getLastD 0
      let last_month_idx : ℤ := (List.range 12).foldl (fun acc i =>
        if (dictGet historical_data (FISCAL_MONTHS.getD i "")).isSome then (i : ℤ) else acc)
        (-1)
      if 0 ≤ last_month_idx then
        (List.range num_months).map (fun i =>
          (FISCAL_MONTHS.getD ((last_month_idx.toNat + i + 1) % 12) "",
            PyFloat.fin forecast_value))
      else []

/-- The per-product loop body of `UniversalDataExtractor.extract`. -/
def productStep (g : Grid) (month_columns : List (String × ℕ))
    (acc : List (String × ProductSeries) × List (String × PyFloat)) (pr : String × ℕ) :
    List (String × ProductSeries) × List (String × PyFloat) :=
  let monthly := extract_monthly_values_for_product g pr.2 month_columns
  let historical := monthly.filterMap (fun p => p.2.map (fun v => (p.1, v)))
  if historical.isEmpty then acc
  else
    let predicted := calculate_predictions historical 6
    let entry : ProductSeries :=
      match dictGet acc.1 pr.1 with
      | some e => ⟨dictMerge e.historical historical, dictMerge e.predicted predicted⟩
      | none => ⟨dictMerge [] historical, dictMerge [] predicted⟩
    let totals := historical.foldl (fun t p =>
      match dictGet t p.1 with
      | some v => dictUpsert t p.1 (pyAdd v p.2)
      | none => dictUpsert t p.1 (pyAdd (.fin 0) p.2)) acc.2
    (dictUpsert acc.1 pr.1 entry, totals)

/-- The per-sheet loop body of `UniversalDataExtractor.extract`. -/
def sheetStep (acc : List (String × ProductSeries) × List (String × PyFloat)) (g : Grid) :
    List (String × ProductSeries) × List (String × PyFloat) :=
  let month_columns := detect_month_columns g
  if month_columns.isEmpty then acc
  else (detect_product_blocks g).foldl (productStep g month_columns) acc

/-- The final result shape of `UniversalDataExtractor.extract`. -/
structure ExtractResult where
  products : List (String × ProductSeries)
  overall : ProductSeries
deriving DecidableEq

/-- The pure core of `UniversalDataExtractor.extract`, over the sheets of
an already-opened workbook (per-sheet and workbook-level exception
handling and file I/O are outside the embedding; a workbook-level failure
returns the same shape with empty contents). -/
def extract (wb : List Grid) : ExtractResult :=
  let acc := wb.foldl sheetStep ([], [])
  let overall : ProductSeries :=
    if acc.2.isEmpty then ⟨[], []⟩
    else ⟨acc.2, calculate_predictions acc.2 6⟩
  ⟨acc.1, overall⟩

end UniversalX

/-- A workbook whose single sheet holds the product `MCT360`, an April
month column, and the text cell `"inf"` in that column. -/
def c9Wb : List Grid :=
  [⟨2, [[Cell.str "MCT360", Cell.str "April"], [Cell.empty, Cell.str "inf"]]⟩]

/-- **C9 counterexample.** A workbook containing the text cell `"inf"`
under a month column defeats the "every returned value is a plain finite
float" contract: `to_float` parses the string to `+∞`, which flows into
the product's and the overall historical series. -/
theorem claim_C9_counterexample :
    UniversalX.dictGet (UniversalX.extract c9Wb).overall.historical "April" =
      some PyFloat.inf ∧
    (∃ e, UniversalX.dictGet (UniversalX.extract c9Wb).products "MCT360" = some e ∧
      UniversalX.dictGet e.historical "April" = some PyFloat.inf) ∧
    pyFinite PyFloat.inf = false := by
  refine ⟨by decide, ⟨⟨[("April", PyFloat.inf)], []⟩, by decide, by decide⟩, by decide⟩

/-- A fold preserves any invariant its step preserves. -/
theorem foldl_preserve {σ α : Type} (P : σ → Prop) (f : σ → α → σ) (l : List α)
    (h : ∀ s a, a ∈ l → P s → P (f s a)) : ∀ s, P s → P (l.foldl f s) := by
  induction l with
  | nil => exact fun s hs => hs
  | cons x t ih =>
    intro s hs
    exact ih (fun s a ha hs => h s a (List.mem_cons_of_mem _ ha) hs) _
      (h s x (List.mem_cons_self _ _) hs)

/-- Adding two finite floats yields a finite float. -/
theorem pyAdd_finite {a b : PyFloat} (ha : pyFinite a = true) (hb : pyFinite b = true) :
    pyFinite (pyAdd a b) = true := by
  cases a <;> cases b <;>
    first
    | rfl
    | exact absurd hb (by decide)
    | exact absurd ha (by decide)

/-- A left fold of `pyAdd` over finite floats, from a finite seed, stays
finite. -/
theorem foldl_pyAdd_finite (l : List PyFloat) (h : ∀ x ∈ l, pyFinite x = true) :
    ∀ q : ℚ, pyFinite (l.foldl pyAdd (.fin q)) = true := by
  induction l with
  | nil => exact fun q => rfl
  | cons x t ih =>
    intro q
    have hx := h x (List.mem_cons_self _ _)
    cases x with
    | fin a =>
      show pyFinite (t.foldl pyAdd (.fin (q + a))) = true
      exact ih (fun y hy => h y (List.mem_cons_of_mem _ hy)) (q + a)
    | nan => cases hx
    | inf => cases hx
    | neginf => cases hx

/-- `sum` of finite floats is finite. -/
theorem pySum_finite (l : List PyFloat) (h : ∀ x ∈ l, pyFinite x = true) :
    pyFinite (pySum l) = true :=
  foldl_pyAdd_finite l h 0

/-- When every parseable cell of the sheet is finite, every extracted
monthly value is absent or finite. -/
theorem extract_monthly_finite (g : Grid) (row : ℕ) (mcols : List (String × ℕ))
    (hg : ∀ r c, r < g.rows.length → c < g.ncols →
      optFinite (UniversalX.to_float (cellAt g r c)) = true) :
    ∀ mv ∈ UniversalX.extract_monthly_values_for_product g row mcols,
      optFinite mv.2 = true := by
  intro mv hmv
  rcases List.mem_map.mp hmv with ⟨mc, hmc, rfl⟩
  dsimp only
  by_cases he : (List.filterMap
      (fun r => if mc.2 < g.ncols then UniversalX.to_float (cellAt g r mc.2) else none)
      (List.range' row (min (row + 30) g.rows.length - row))).isEmpty = true
  · rw [if_pos he]
    rfl
  · rw [if_neg he]
    show pyFinite (pySum _) = true
    apply pySum_finite
    intro x hx
    rcases List.mem_filterMap.mp hx with ⟨r, hr, hfx⟩
    by_cases hc : mc.2 < g.ncols
    · rw [if_pos hc] at hfx
      have hrlt : r < g.rows.length := by
        have h1 := (List.mem_range'_1.mp hr).1
        have h2 := (List.mem_range'_1.mp hr).2
        omega
      have := hg r mc.2 hrlt hc
      rw [hfx] at this
      exact this
    · rw [if_neg hc] at hfx
      cases hfx

/-- Predicted values are always finite: the forecast is the mean of the
finite historical values. -/
theorem calculate_predictions_finite (hist : List (String × PyFloat)) (n : ℕ) :
    ∀ mv ∈ UniversalX.calculate_predictions hist n, pyFinite mv.2 = true := by
  intro mv hmv
  simp only [UniversalX.calculate_predictions] at hmv
  split at hmv
  · cases hmv
  · split at hmv
    · cases hmv
    · split at hmv
      · rcases List.mem_map.mp hmv with ⟨i, hi, rfl⟩
        rfl
      · cases hmv

/-- Dict assignment preserves a value invariant. -/
theorem dictUpsert_forall {β : Type} (Q : β → Prop) (m : List (String × β)) (k : String)
    (v : β) (hm : ∀ p ∈ m, Q p.2) (hv : Q v) :
    ∀ p ∈ UniversalX.dictUpsert m k v, Q p.2 := by
  intro p hp
  unfold UniversalX.dictUpsert at hp
  by_cases hf : ((m.find? (fun p => p.1 = k)).isSome) = true
  · rw [if_pos hf] at hp
    rcases List.mem_map.mp hp with ⟨q, hq, rfl⟩
    by_cases hqk : q.1 = k
    · simp only [hqk, if_true, if_pos rfl]
      exact hv
    · rw [if_neg hqk]
      exact hm q hq
  · rw [if_neg hf] at hp
    rcases List.mem_append.mp hp with hp | hp
    · exact hm p hp
    · rcases List.mem_singleton.mp hp with rfl
      exact hv

/-- Dict update preserves a value invariant. -/
theorem dictMerge_forall {β : Type} (Q : β → Prop) (old new : List (String × β))
    (hold : ∀ p ∈ old, Q p.2) (hnew : ∀ p ∈ new, Q p.2) :
    ∀ p ∈ UniversalX.dictMerge old new, Q p.2 := by
  unfold UniversalX.dictMerge
  exact foldl_preserve (fun m => ∀ p ∈ m, Q p.2)
    (fun acc p => UniversalX.dictUpsert acc p.1 p.2) new
    (fun s a ha hs => dictUpsert_forall Q s a.1 a.2 hs (hnew a ha)) old hold

/-- The running invariant of `UniversalDataExtractor.extract`: every
stored product value and every running overall total is finite. -/
def accFinite (acc : List (String × UniversalX.ProductSeries) × List (String × PyFloat)) :
    Prop :=
  (∀ pe ∈ acc.1, (∀ mv ∈ pe.2.historical, pyFinite mv.2 = true) ∧
    (∀ mv ∈ pe.2.predicted, pyFinite mv.2 = true)) ∧
  (∀ mv ∈ acc.2, pyFinite mv.2 = true)

/-- The per-product step preserves the finiteness invariant when the
sheet's parseable cells are all finite. -/
theorem productStep_preserve (g : Grid) (mcols : List (String × ℕ))
    (hg : ∀ r c, r < g.rows.length → c < g.ncols →
      optFinite (UniversalX.to_float (cellAt g r c)) = true)
    (acc : List (String × UniversalX.ProductSeries) × List (String × PyFloat))
    (pr : String × ℕ) (hacc : accFinite acc) :
    accFinite (UniversalX.productStep g mcols acc pr) := by
  unfold UniversalX.productStep
  by_cases he : ((UniversalX.extract_monthly_values_for_product g pr.2 mcols).filterMap
      (fun p => p.2.map (fun v => (p.1, v)))).isEmpty = true
  · rw [if_pos he]
    exact hacc
  · rw [if_neg he]
    have hhist : ∀ mv ∈ (UniversalX.extract_monthly_values_for_product g pr.2 mcols).filterMap
        (fun p => p.2.map (fun v => (p.1, v))), pyFinite mv.2 = true := by
      intro mv hmv
      rcases List.mem_filterMap.mp hmv with ⟨p, hp, hsome⟩
      have hopt := extract_monthly_finite g pr.2 mcols hg p hp
      cases hp2 : p.2 with
      | none =>
        rw [hp2] at hsome
        cases hsome
      | some v =>
        rw [hp2] at hsome
        cases hsome
        rw [hp2] at hopt
        exact hopt
    dsimp only
    refine ⟨?_, ?_⟩
    · cases hg2 : UniversalX.dictGet acc.1 pr.1 with
      | some e =>
        have hemem : ∃ p, acc.1.find? (fun p => p.1 = pr.1) = some p ∧ p.2 = e := by
          unfold UniversalX.dictGet at hg2
          cases hfind : acc.1.find? (fun p => p.1 = pr.1) with
          | none =>
            rw [hfind] at hg2
            cases hg2
          | some p =>
            rw [hfind] at hg2
            exact ⟨p, rfl, Option.some.inj hg2⟩
        rcases hemem with ⟨p, hfind, hpe2⟩
        have hpmem := List.mem_of_find?_eq_some hfind
        have hpe := hacc.1 p hpmem
        rw [hpe2] at hpe
        dsimp only
        apply dictUpsert_forall (fun s : UniversalX.ProductSeries =>
          (∀ mv ∈ s.historical, pyFinite mv.2 = true) ∧
            (∀ mv ∈ s.predicted, pyFinite mv.2 = true)) _ _ _ hacc.1
        constructor
        · exact dictMerge_forall (fun v : PyFloat => pyFinite v = true) _ _ hpe.1 hhist
        · exact dictMerge_forall (fun v : PyFloat => pyFinite v = true) _ _ hpe.2
            (calculate_predictions_finite _ 6)
      | none =>
        dsimp only
        apply dictUpsert_forall (fun s : UniversalX.ProductSeries =>
          (∀ mv ∈ s.historical, pyFinite mv.2 = true) ∧
            (∀ mv ∈ s.predicted, pyFinite mv.2 = true)) _ _ _ hacc.1
        constructor
        · exact dictMerge_forall (fun v : PyFloat => pyFinite v = true) _ _
            (fun p hp => absurd hp (List.not_mem_nil p)) hhist
        · exact dictMerge_forall (fun v : PyFloat => pyFinite v = true) _ _
            (fun p hp => absurd hp (List.not_mem_nil p))
            (calculate_predictions_finite _ 6)
    · dsimp only
      apply foldl_preserve (fun t : List (String × PyFloat) => ∀ mv ∈ t, pyFinite mv.2 = true) _ _ ?_ _ hacc.2
      intro t a ha ht
      have hav : pyFinite a.2 = true := hhist a ha
      cases hgt : UniversalX.dictGet t a.1 with
      | some v =>
        have hvfin : pyFinite v = true := by
          unfold UniversalX.dictGet at hgt
          cases hfind : t.find? (fun p => p.1 = a.1) with
          | none =>
            rw [hfind] at hgt
            cases hgt
          | some p =>
            rw [hfind] at hgt
            cases Option.some.inj hgt
            exact ht p (List.mem_of_find?_eq_some hfind)
        exact dictUpsert_forall (fun v => pyFinite v = true) _ _ _ ht
          (pyAdd_finite hvfin hav)
      | none =>
        exact dictUpsert_forall (fun v => pyFinite v = true) _ _ _ ht
          (pyAdd_finite rfl hav)

/-- The per-sheet step preserves the finiteness invariant. -/
theorem sheetStep_preserve (g : Grid)
    (hg : ∀ r c, r < g.rows.length → c < g.ncols →
      optFinite (UniversalX.to_float (cellAt g r c)) = true)
    (acc : List (String × UniversalX.ProductSeries) × List (String × PyFloat))
    (hacc : accFinite acc) : accFinite (UniversalX.sheetStep acc g) := by
  unfold UniversalX.sheetStep
  by_cases hm : (UniversalX.detect_month_columns g).isEmpty = true
  · rw [if_pos hm]
    exact hacc
  · rw [if_neg hm]
    exact foldl_preserve accFinite _ _
      (fun s a _ hs => productStep_preserve g _ hg s a hs) acc hacc

/-- **C9 (amended).** Provided no cell's text parses to a non-finite
float (`to_float` of every in-range cell is absent or finite — numeric
`NaN`/infinities are always rejected, but strings such as `"inf"` are
not, see the counterexample), every value `extract` returns — each
product's and the overall historical and predicted series — is a finite
float; predicted values are finite unconditionally. -/
theorem claim_C9_extract_values_finite (wb : List Grid)
    (h : ∀ g ∈ wb, ∀ r < g.rows.length, ∀ c < g.ncols,
      optFinite (UniversalX.to_float (cellAt g r c)) = true) :
    (∀ pe ∈ (UniversalX.extract wb).products,
      (∀ mv ∈ pe.2.historical, pyFinite mv.2 = true) ∧
      (∀ mv ∈ pe.2.predicted, pyFinite mv.2 = true)) ∧
    (∀ mv ∈ (UniversalX.extract wb).overall.historical, pyFinite mv.2 = true) ∧
    (∀ mv ∈ (UniversalX.extract wb).overall.predicted, pyFinite mv.2 = true) := by
  have hacc : accFinite (wb.foldl UniversalX.sheetStep ([], [])) :=
    foldl_preserve accFinite UniversalX.sheetStep wb
      (fun s g hgmem hs =>
        sheetStep_preserve g (fun r c hr hc => h g hgmem r hr c hc) s hs) ([], [])
      ⟨(fun pe hpe => absurd hpe (List.not_mem_nil pe)),
       (fun mv hmv => absurd hmv (List.not_mem_nil mv))⟩
  unfold UniversalX.extract
  refine ⟨hacc.1, ?_, ?_⟩
  · dsimp only
    by_cases ht : (wb.foldl UniversalX.sheetStep ([], [])).2.isEmpty = true
    · rw [if_pos ht]
      intro mv hmv
      cases hmv
    · rw [if_neg ht]
      exact hacc.2
  · dsimp only
    by_cases ht : (wb.foldl UniversalX.sheetStep ([], [])).2.isEmpty = true
    · rw [if_pos ht]
      intro mv hmv
      cases hmv
    · rw [if_neg ht]
      exact calculate_predictions_finite _ 6

/-- A finite-valued variant of the C9 workbook (the `"inf"` cell replaced
by `"5"`). -/
def c9FiniteWb : List Grid :=
  [⟨2, [[Cell.str "MCT360", Cell.str "April"], [Cell.empty, Cell.str "5"]]⟩]

/-- Witness for C9's amended statement at a concrete workbook with only
finite-parsing cells. -/
theorem claim_C9_witness :
    (∀ pe ∈ (UniversalX.extract c9FiniteWb).products,
      (∀ mv ∈ pe.2.historical, pyFinite mv.2 = true) ∧
      (∀ mv ∈ pe.2.predicted, pyFinite mv.2 = true)) ∧
    (∀ mv ∈ (UniversalX.extract c9FiniteWb).overall.historical, pyFinite mv.2 = true) ∧
    (∀ mv ∈ (UniversalX.extract c9FiniteWb).overall.predicted, pyFinite mv.2 = true) :=
  claim_C9_extract_values_finite c9FiniteWb (by decide)

/-! ## §views — the spreadsheet region parser

The `regions` dict is modelled as an association list to which writes are
prepended; a lookup takes the most recent write for its key. -/

/-- `regions[k] = v`. -/
def rset (m : List (ℕ × String)) (k : ℕ) (v : String) : List (ℕ × String) :=
  (k, v) :: m

/-- `regions.get(k)`. -/
def rget (m : List (ℕ × String)) (k : ℕ) : Option String :=
  (m.find? (fun p => p.1 = k)).map (fun p => p.2)

namespace Views

/-- The six known ingredient codes, in the parser's scan order. -/
def INGREDIENTS : List String :=
  ["MCT360", "MCT165", "MCTSTICK10", "MCTSTICK30", "MCTSTICK16", "MCTITTO_C"]

/-- `df.iloc[i].isna().all()`. -/
def rowAllNA (g : Grid) (i : ℕ) : Bool :=
  (List.range g.ncols).all (fun j => cellIsNA (cellAt g i j))

/-- `df.iloc[i].iloc[2:max_col_idx].isna().all()` — columns C.. blank. -/
def rowNAInCP (g : Grid) (i maxCol : ℕ) : Bool :=
  (List.range' 2 (maxCol - 2)).all (fun j => cellIsNA (cellAt g i j))

/-- The first completely empty row among rows 2..99. -/
def findSeparator (g : Grid) : Option ℕ :=
  (List.range' 2 (min g.rows.length 100 - 2)).find? (fun i => rowAllNA g i)

/-- The lowercased text of a row's column-A cell. -/
def colAText (g : Grid) (i : ℕ) : String := lowerStr (cellStr (cellAt g i 0))

/-- Whether row `i`'s column-A text contains the (lowercased) code. -/
def colAMatch (g : Grid) (i : ℕ) (ing : String) : Bool :=
  strContains (colAText g i) (lowerStr ing)

/-- The annual-data walk between row 3 and the separator row: a
blank-in-C..P row is an `annual_separator`; otherwise the next five rows
(clipped at the separator) are `annual_data`. -/
def annualWalkF (g : Grid) (S : ℕ) : ℕ → List (ℕ × String) → ℕ → List (ℕ × String)
  | 0, m, _ => m
  | fuel + 1, m, i =>
    if i < S then
      let maxCol := min 16 g.ncols
      if 2 < maxCol then
        if rowNAInCP g i maxCol then annualWalkF g S fuel (rset m i "annual_separator") (i + 1)
        else
          annualWalkF g S fuel
            ((List.range 5).foldl
              (fun acc j => if i + j < S then rset acc (i + j) "annual_data" else acc) m)
            (i + 5)
      else annualWalkF g S fuel (rset m i "annual_data") (i + 1)
    else m

/-- The loop advances `i` by at least one per iteration, so `S` steps of
fuel always reach the `i < S` exit. -/
def annualWalk (g : Grid) (S : ℕ) (m : List (ℕ × String)) (i : ℕ) : List (ℕ × String) :=
  annualWalkF g S S m i

/-- One ingredient search: the first row in the 500-row window from
`temp_start` whose column-A text contains the code. -/
def findCodeRow (g : Grid) (total temp_start : ℕ) (ing : String) : Option ℕ :=
  (List.range' temp_start (min total (temp_start + 500) - temp_start)).find?
    (fun i => colAMatch g i ing)

/-- The sequential forward scan over the six codes: each search starts
one past the previous match; a code that is not found leaves the cursor
unchanged and is absent from the result. -/
def scanIngredients (g : Grid) (total scanStart : ℕ) : List (String × ℕ) :=
  (INGREDIENTS.foldl (fun acc ing =>
    match findCodeRow g total acc.2 ing with
    | some i => (acc.1 ++ [(ing, i)], i + 1)
    | none => acc) (([] : List (String × ℕ)), scanStart)).1

/-- Tag every row in `[s, e)`. -/
def tagRange (m : List (ℕ × String)) (s e : ℕ) (tag : String) : List (ℕ × String) :=
  (List.range' s (e - s)).foldl (fun acc j => rset acc j tag) m

/-- Assign the contiguous ingredient spans: each code's rows run from its
match row to the next code's row, the last to the end of the sheet. -/
def assignSpans (total : ℕ) : List (String × ℕ) → List (ℕ × String) → List (ℕ × String)
  | [], m => m
  | (ing, start) :: rest, m =>
    let e :=
      match rest with
      | (_, s2) :: _ => s2
      | [] => total
    assignSpans total rest (tagRange m start e ("ingredient_" ++ lowerStr ing))

/-- The no-separator fallback: search column A of rows 2..199 for the
codes, span the found ones, and tag the prefix as annual data (or
everything as `unknown` when nothing is found). -/
def fallbackNoSep (g : Grid) (total : ℕ) (m : List (ℕ × String)) : List (ℕ × String) :=
  let found : List (String × ℕ) :=
    if g.ncols = 0 then []
    else
      (List.range' 2 (min total 200 - 2)).foldl (fun acc i =>
        INGREDIENTS.foldl (fun acc ing =>
          if colAMatch g i ing ∧ (acc.find? (fun p => p.1 = ing)).isNone then
            acc ++ [(ing, i)]
          else acc) acc) []
  if found.isEmpty then
    (List.range' 2 (total - 2)).foldl (fun acc i => rset acc i "unknown") m
  else
    let sorted := sortByLe (fun a b => decide (a.2 ≤ b.2)) found
    let m2 := assignSpans total sorted m
    let first := (sorted.headD ("", total)).2
    (List.range' 2 (first - 2)).foldl
      (fun acc i => rset acc i (if 2 < i then "annual_data" else "annual_header")) m2

/-- `views.parse_excel_regions`. -/
def parse_excel_regions (g : Grid) : List (ℕ × String) :=
  let total := g.rows.length
  if total = 0 then []
  else
    let m0 := rset [] 0 "title"
    let m1 := if 1 < total then rset m0 1 "empty" else m0
    match findSeparator g with
    | none => fallbackNoSep g total m1
    | some S =>
      let m2 := if 2 < S then rset m1 2 "annual_header" else m1
      let m3 := annualWalk g S m2 3
      let startIng := if S < total ∧ rowAllNA g S then S + 1 else S
      let m4 := if S < total ∧ rowAllNA g S then rset m3 S "empty" else m3
      let m5 := (List.range 3).foldl
        (fun acc j => if startIng + j < total then rset acc (startIng + j) "ingredient_header"
          else acc) m4
      let starts := if g.ncols = 0 then [] else scanIngredients g total (startIng + 3)
      if starts.isEmpty then m5
      else assignSpans total (sortByLe (fun a b => decide (a.2 ≤ b.2)) starts) m5

end Views

/-- `find?` over a contiguous range returns the first satisfying index. -/
theorem find?_range'_eq (p : ℕ → Bool) :
    ∀ (n s t : ℕ), s ≤ t → t < s + n → p t = true →
      (∀ i, s ≤ i → i < t → p i = false) →
      (List.range' s n).find? p = some t := by
  intro n
  induction n with
  | zero =>
    intro s t hst htn
    omega
  | succ n ih =>
    intro s t hst htn hp hbefore
    have hr : List.range' s (n + 1) = s :: List.range' (s + 1) n := rfl
    rw [hr]
    by_cases hps : p s = true
    · have hts : t = s := by
        by_contra hne
        have hlt : s < t := lt_of_le_of_ne hst (fun h => hne h.symm)
        have := hbefore s le_rfl hlt
        rw [this] at hps
        cases hps
      rw [List.find?_cons_of_pos _ hps, hts]
    · rw [List.find?_cons_of_neg _ (by simpa using hps)]
      have hst' : s + 1 ≤ t := by
        rcases Nat.lt_or_ge s t with h | h
        · omega
        · have hts : t = s := le_antisymm h hst
          rw [hts] at hp
          rw [hp] at hps
          cases hps rfl
      exact ih (s + 1) t hst' (by omega) hp (fun i hi1 hi2 => hbefore i (by omega) hi2)

/-- Writing a different key leaves a lookup unchanged. -/
theorem rget_rset_ne (m : List (ℕ × String)) (k j : ℕ) (v : String) (h : k ≠ j) :
    rget (rset m k v) j = rget m j := by
  unfold rget rset
  rw [List.find?_cons_of_neg _ (by simpa using h)]

/-- Tagging a range leaves out-of-range keys unchanged. -/
theorem rget_foldl_rset_out (tag : String) :
    ∀ (n s : ℕ) (m : List (ℕ × String)) (j : ℕ), j < s ∨ s + n ≤ j →
      rget ((List.range' s n).foldl (fun acc k => rset acc k tag) m) j = rget m j := by
  intro n
  induction n with
  | zero => intro s m j _; rfl
  | succ n ih =>
    intro s m j hj
    have hr : List.range' s (n + 1) = s :: List.range' (s + 1) n := rfl
    rw [hr, List.foldl_cons]
    rw [ih (s + 1) (rset m s tag) j (by omega)]
    exact rget_rset_ne m s j tag (by omega)

/-- Tagging a range writes every in-range key. -/
theorem rget_foldl_rset_in (tag : String) :
    ∀ (n s : ℕ) (m : List (ℕ × String)) (j : ℕ), s ≤ j → j < s + n →
      rget ((List.range' s n).foldl (fun acc k => rset acc k tag) m) j = some tag := by
  intro n
  induction n with
  | zero => intro s m j h1 h2; omega
  | succ n ih =>
    intro s m j h1 h2
    have hr : List.range' s (n + 1) = s :: List.range' (s + 1) n := rfl
    rw [hr, List.foldl_cons]
    by_cases hje : j = s
    · subst hje
      rw [rget_foldl_rset_out tag n (j + 1) (rset m j tag) j (by omega)]
      unfold rget rset
      rw [List.find?_cons_of_pos _ (by simp)]
      rfl
    · exact ih (s + 1) (rset m s tag) j (by omega) (by omega)

/-- In-range lookup after `tagRange`. -/
theorem rget_tagRange_in (m : List (ℕ × String)) (s e j : ℕ) (tag : String)
    (h1 : s ≤ j) (h2 : j < e) :
    rget (Views.tagRange m s e tag) j = some tag := by
  unfold Views.tagRange
  exact rget_foldl_rset_in tag (e - s) s m j h1 (by omega)

/-- Out-of-range lookup after `tagRange`. -/
theorem rget_tagRange_out (m : List (ℕ × String)) (s e j : ℕ) (tag : String)
    (h : j < s ∨ e ≤ j) :
    rget (Views.tagRange m s e tag) j = rget m j := by
  unfold Views.tagRange
  by_cases hse : e ≤ s
  · have : e - s = 0 := by omega
    rw [this]
    rfl
  · exact rget_foldl_rset_out tag (e - s) s m j (by omega)

/-- **C5 (amended).** For a sheet with a title row, an empty row, a
non-blank block up to a fully blank separator row `S` found within the
first 100 rows, a 3-row ingredient header, and the six known codes first
occurring in column A at ascending rows `r0 < … < r5` below the header —
*each within the scanner's 500-row search window that starts one row past
the previous match* — `parse_excel_regions` tags every row from `r0` to
the end of the sheet with the matching code's `ingredient_<code>` span:
from each code's first occurrence up to (excluding) the next code's row,
the last span extending to the sheet's end, with no gaps or overlaps. -/
theorem claim_C5_ingredient_spans (g : Grid) (S r0 r1 r2 r3 r4 r5 : ℕ)
    (hA : 0 < g.ncols)
    (hS2 : 2 ≤ S) (hS100 : S < 100) (hStot : S < g.rows.length)
    (hSna : Views.rowAllNA g S = true)
    (hpre : ∀ i < S, 2 ≤ i → Views.rowAllNA g i = false)
    (hr0 : S + 4 ≤ r0) (h01 : r0 < r1) (h12 : r1 < r2) (h23 : r2 < r3)
    (h34 : r3 < r4) (h45 : r4 < r5) (h5t : r5 < g.rows.length)
    (hw0 : r0 < S + 4 + 500) (hw1 : r1 < r0 + 501) (hw2 : r2 < r1 + 501)
    (hw3 : r3 < r2 + 501) (hw4 : r4 < r3 + 501) (hw5 : r5 < r4 + 501)
    (hma : Views.colAMatch g r0 "MCT360" = true)
    (hmb : Views.colAMatch g r1 "MCT165" = true)
    (hmc : Views.colAMatch g r2 "MCTSTICK10" = true)
    (hmd : Views.colAMatch g r3 "MCTSTICK30" = true)
    (hme : Views.colAMatch g r4 "MCTSTICK16" = true)
    (hmf : Views.colAMatch g r5 "MCTITTO_C" = true)
    (hna : ∀ i < r0, S + 4 ≤ i → Views.colAMatch g i "MCT360" = false)
    (hnb : ∀ i < r1, r0 + 1 ≤ i → Views.colAMatch g i "MCT165" = false)
    (hnc : ∀ i < r2, r1 + 1 ≤ i → Views.colAMatch g i "MCTSTICK10" = false)
    (hnd : ∀ i < r3, r2 + 1 ≤ i → Views.colAMatch g i "MCTSTICK30" = false)
    (hne : ∀ i < r4, r3 + 1 ≤ i → Views.colAMatch g i "MCTSTICK16" = false)
    (hnf : ∀ i < r5, r4 + 1 ≤ i → Views.colAMatch g i "MCTITTO_C" = false) :
    ∀ i, r0 ≤ i → i < g.rows.length →
      rget (Views.parse_excel_regions g) i = some
        (if i < r1 then "ingredient_mct360"
         else if i < r2 then "ingredient_mct165"
         else if i < r3 then "ingredient_mctstick10"
         else if i < r4 then "ingredient_mctstick30"
         else if i < r5 then "ingredient_mctstick16"
         else "ingredient_mctitto_c") := by
  have htotne : ¬ (g.rows.length = 0) := by omega
  have h1t : 1 < g.rows.length := by omega
  have hAne : ¬ (g.ncols = 0) := by omega
  have hsep : Views.findSeparator g = some S := by
    unfold Views.findSeparator
    exact find?_range'_eq _ _ 2 S hS2 (by omega) hSna
      (fun i hi1 hi2 => hpre i hi2 hi1)
  have he0 : Views.findCodeRow g g.rows.length (S + 1 + 3) "MCT360" = some r0 := by
    unfold Views.findCodeRow
    exact find?_range'_eq _ _ _ r0 (by omega) (by omega) hma
      (fun i hi1 hi2 => hna i hi2 (by omega))
  have he1 : Views.findCodeRow g g.rows.length (r0 + 1) "MCT165" = some r1 := by
    unfold Views.findCodeRow
    exact find?_range'_eq _ _ _ r1 (by omega) (by omega) hmb
      (fun i hi1 hi2 => hnb i hi2 (by omega))
  have he2 : Views.findCodeRow g g.rows.length (r1 + 1) "MCTSTICK10" = some r2 := by
    unfold Views.findCodeRow
    exact find?_range'_eq _ _ _ r2 (by omega) (by omega) hmc
      (fun i hi1 hi2 => hnc i hi2 (by omega))
  have he3 : Views.findCodeRow g g.rows.length (r2 + 1) "MCTSTICK30" = some r3 := by
    unfold Views.findCodeRow
    exact find?_range'_eq _ _ _ r3 (by omega) (by omega) hmd
      (fun i hi1 hi2 => hnd i hi2 (by omega))
  have he4 : Views.findCodeRow g g.rows.length (r3 + 1) "MCTSTICK16" = some r4 := by
    unfold Views.findCodeRow
    exact find?_range'_eq _ _ _ r4 (by omega) (by omega) hme
      (fun i hi1 hi2 => hne i hi2 (by omega))
  have he5 : Views.findCodeRow g g.rows.length (r4 + 1) "MCTITTO_C" = some r5 := by
    unfold Views.findCodeRow
    exact find?_range'_eq _ _ _ r5 (by omega) (by omega) hmf
      (fun i hi1 hi2 => hnf i hi2 (by omega))
  have hscan : Views.scanIngredients g g.rows.length (S + 1 + 3) =
      [("MCT360", r0), ("MCT165", r1), ("MCTSTICK10", r2), ("MCTSTICK30", r3),
       ("MCTSTICK16", r4), ("MCTITTO_C", r5)] := by
    unfold Views.scanIngredients Views.INGREDIENTS
    simp only [List.foldl_cons, List.foldl_nil, he0, he1, he2, he3, he4, he5,
      List.nil_append, List.cons_append, List.append_nil]
  have d01 : decide (r0 ≤ r1) = true := decide_eq_true (le_of_lt h01)
  have d12 : decide (r1 ≤ r2) = true := decide_eq_true (le_of_lt h12)
  have d23 : decide (r2 ≤ r3) = true := decide_eq_true (le_of_lt h23)
  have d34 : decide (r3 ≤ r4) = true := decide_eq_true (le_of_lt h34)
  have d45 : decide (r4 ≤ r5) = true := decide_eq_true (le_of_lt h45)
  have hsort : sortByLe (fun a b : String × ℕ => decide (a.2 ≤ b.2))
      [("MCT360", r0), ("MCT165", r1), ("MCTSTICK10", r2), ("MCTSTICK30", r3),
       ("MCTSTICK16", r4), ("MCTITTO_C", r5)] =
      [("MCT360", r0), ("MCT165", r1), ("MCTSTICK10", r2), ("MCTSTICK30", r3),
       ("MCTSTICK16", r4), ("MCTITTO_C", r5)] := by
    simp only [sortByLe, List.foldr_cons, List.foldr_nil, insertByLe,
      d01, d12, d23, d34, d45, if_true]
  have hparse : ∃ m5, Views.parse_excel_regions g =
      Views.assignSpans g.rows.length
        [("MCT360", r0), ("MCT165", r1), ("MCTSTICK10", r2), ("MCTSTICK30", r3),
         ("MCTSTICK16", r4), ("MCTITTO_C", r5)] m5 := by
    unfold Views.parse_excel_regions
    simp only [htotne, if_false, hsep, hStot, hSna, and_self, if_true, hAne, hscan,
      hsort, List.isEmpty_cons, Bool.false_eq_true, eq_self_iff_true, and_true, true_and]
    exact ⟨_, rfl⟩
  rcases hparse with ⟨m5, hm5⟩
  have ht0 : ("ingredient_" ++ lowerStr "MCT360") = "ingredient_mct360" := by decide
  have ht1 : ("ingredient_" ++ lowerStr "MCT165") = "ingredient_mct165" := by decide
  have ht2 : ("ingredient_" ++ lowerStr "MCTSTICK10") = "ingredient_mctstick10" := by decide
  have ht3 : ("ingredient_" ++ lowerStr "MCTSTICK30") = "ingredient_mctstick30" := by decide
  have ht4 : ("ingredient_" ++ lowerStr "MCTSTICK16") = "ingredient_mctstick16" := by decide
  have ht5 : ("ingredient_" ++ lowerStr "MCTITTO_C") = "ingredient_mctitto_c" := by decide
  intro i hi0 hit
  rw [hm5]
  simp only [Views.assignSpans, ht0, ht1, ht2, ht3, ht4, ht5]
  rcases Nat.lt_or_ge i r1 with h1 | h1
  · rw [rget_tagRange_out _ _ _ _ _ (Or.inl (by omega)),
      rget_tagRange_out _ _ _ _ _ (Or.inl (by omega)),
      rget_tagRange_out _ _ _ _ _ (Or.inl (by omega)),
      rget_tagRange_out _ _ _ _ _ (Or.inl (by omega)),
      rget_tagRange_out _ _ _ _ _ (Or.inl (by omega)),
      rget_tagRange_in _ _ _ _ _ hi0 h1, if_pos h1]
  · rcases Nat.lt_or_ge i r2 with h2 | h2
    · rw [rget_tagRange_out _ _ _ _ _ (Or.inl (by omega)),
        rget_tagRange_out _ _ _ _ _ (Or.inl (by omega)),
        rget_tagRange_out _ _ _ _ _ (Or.inl (by omega)),
        rget_tagRange_out _ _ _ _ _ (Or.inl (by omega)),
        rget_tagRange_in _ _ _ _ _ h1 h2,
        if_neg (by omega), if_pos h2]
    · rcases Nat.lt_or_ge i r3 with h3 | h3
      · rw [rget_tagRange_out _ _ _ _ _ (Or.inl (by omega)),
          rget_tagRange_out _ _ _ _ _ (Or.inl (by omega)),
          rget_tagRange_out _ _ _ _ _ (Or.inl (by omega)),
          rget_tagRange_in _ _ _ _ _ h2 h3,
          if_neg (by omega), if_neg (by omega), if_pos h3]
      · rcases Nat.lt_or_ge i r4 with h4 | h4
        · rw [rget_tagRange_out _ _ _ _ _ (Or.inl (by omega)),
            rget_tagRange_out _ _ _ _ _ (Or.inl (by omega)),
            rget_tagRange_in _ _ _ _ _ h3 h4,
            if_neg (by omega), if_neg (by omega), if_neg (by omega), if_pos h4]
        · rcases Nat.lt_or_ge i r5 with h5 | h5
          · rw [rget_tagRange_out _ _ _ _ _ (Or.inl (by omega)),
              rget_tagRange_in _ _ _ _ _ h4 h5,
              if_neg (by omega), if_neg (by omega), if_neg (by omega),
              if_neg (by omega), if_pos h5]
          · rw [rget_tagRange_in _ _ _ _ _ h5 hit,
              if_neg (by omega), if_neg (by omega), if_neg (by omega),
              if_neg (by omega), if_neg (by omega)]

/-- A sheet in the claimed family whose six code rows sit just past the
scanner's 500-row window: title row, empty row, blank separator at row 2,
three header rows (3..5), 500 blank rows (6..505), then the six codes in
order at rows 506..511. -/
def c5CxGrid : Grid :=
  ⟨1,
    [[Cell.str "Title"], [Cell.empty], [Cell.empty]] ++
    List.replicate 3 [Cell.empty] ++
    List.replicate 500 [Cell.empty] ++
    [[Cell.str "MCT360"], [Cell.str "MCT165"], [Cell.str "MCTSTICK10"],
     [Cell.str "MCTSTICK30"], [Cell.str "MCTSTICK16"], [Cell.str "MCTITTO_C"]]⟩

/-- **C5 counterexample.** A sheet of the claimed family — separator at
row 2, the six codes present in column A in scan order at rows 506..511 —
whose code rows lie beyond the 500-row search window, so the parser
leaves the first code row with no `ingredient_` tag at all. -/
theorem claim_C5_counterexample :
    Views.findSeparator c5CxGrid = some 2 ∧
    Views.colAMatch c5CxGrid 506 "MCT360" = true ∧
    Views.colAMatch c5CxGrid 507 "MCT165" = true ∧
    Views.colAMatch c5CxGrid 508 "MCTSTICK10" = true ∧
    Views.colAMatch c5CxGrid 509 "MCTSTICK30" = true ∧
    Views.colAMatch c5CxGrid 510 "MCTSTICK16" = true ∧
    Views.colAMatch c5CxGrid 511 "MCTITTO_C" = true ∧
    506 < c5CxGrid.rows.length ∧
    rget (Views.parse_excel_regions c5CxGrid) 506 = none := by
  set_option maxRecDepth 10000 in decide

/-- A small sheet of the family with all six codes inside the scan
windows: separator at row 2, headers 3..5, codes at rows 6..11, two
trailing blank rows. -/
def c5WGrid : Grid :=
  ⟨1,
    [[Cell.str "Title"], [Cell.empty], [Cell.empty],
     [Cell.str "h"], [Cell.str "h"], [Cell.str "h"],
     [Cell.str "MCT360"], [Cell.str "MCT165"], [Cell.str "MCTSTICK10"],
     [Cell.str "MCTSTICK30"], [Cell.str "MCTSTICK16"], [Cell.str "MCTITTO_C"],
     [Cell.empty], [Cell.empty]]⟩

/-- Witness for C5: on the concrete sheet the first code row is tagged
with its own span and the final blank row falls in the last code's span. -/
theorem claim_C5_witness :
    rget (Views.parse_excel_regions c5WGrid) 6 = some "ingredient_mct360" ∧
    rget (Views.parse_excel_regions c5WGrid) 13 = some "ingredient_mctitto_c" := by
  have h := claim_C5_ingredient_spans c5WGrid 2 6 7 8 9 10 11
    (by decide) (by decide) (by decide) (by decide) (by decide) (by decide)
    (by decide) (by decide) (by decide) (by decide) (by decide) (by decide)
    (by decide) (by decide) (by decide) (by decide) (by decide) (by decide)
    (by decide) (by decide) (by decide) (by decide) (by decide) (by decide)
    (by decide) (by decide) (by decide) (by decide) (by decide) (by decide)
    (by decide)
  constructor
  · have h6 := h 6 (by decide) (by decide)
    simpa using h6
  · have h13 := h 13 (by decide) (by decide)
    simpa using h13
